import Mathlib

/-! Verification of the BPRO Xero-to-Google-Sheets synchronisation service
(src/app.js): a shallow embedding of its data model and transformations,
with theorems about the specified behaviour.  JavaScript strings are
modelled as `String` (an absent `value` field is the empty string, matching
the JS truthiness checks applied to these fields), numbers arising from
`parseFloat` as exact fractions with `none` playing the role of `NaN`, and
dates as explicit calendar components.  ISO rendering is modelled at UTC offset
zero. -/

namespace BPro

/-- Calendar date in JS `Date` components: `month` is 0-based as in
`date.getMonth()`.  Times of day do not affect the embedded code paths and
are dropped. -/
structure CalDate where
  year : Nat
  month : Nat
  day : Nat
deriving DecidableEq, Repr

/-- JS `Date` comparison `d1 <= d2` (timestamp order) on normalised calendar
dates: lexicographic on (year, month, day). -/
def dateLe (a b : CalDate) : Bool :=
  a.year < b.year ||
    (a.year == b.year && (a.month < b.month ||
      (a.month == b.month && a.day ≤ b.day)))

/-- Month normalisation performed by the JS `Date(year, month, day)`
constructor: `month` may reach 12 and carries into the year.  (Day overflow
never arises in the embedded code, where the day argument is 1 or 2.) -/
def mkDate (y m d : Nat) : CalDate :=
  ⟨y + m / 12, m % 12, d⟩

def padTwo (n : Nat) : String :=
  if n < 10 then "0" ++ toString n else toString n

def padFour (n : Nat) : String :=
  if n < 10 then "000" ++ toString n
  else if n < 100 then "00" ++ toString n
  else if n < 1000 then "0" ++ toString n
  else toString n

/-- The date part of JS `date.toISOString().split("T")[0]`, at UTC offset
zero: `YYYY-MM-DD` (ISO months are 1-based). -/
def isoDate (d : CalDate) : String :=
  padFour d.year ++ "-" ++ padTwo (d.month + 1) ++ "-" ++ padTwo d.day

/-- One `{start, end}` pair produced by `getMonthsRange`.  The source field
`end` is called `endDate` here (`end` is reserved in Lean). -/
structure DateRange where
  start : String
  endDate : String
deriving DecidableEq, Repr

/-- The `while (currentDate <= today)` loop of `getMonthsRange`, with
explicit fuel bounding the number of iterations; the caller passes enough
fuel for the whole range, so the loop always terminates on the `<=` test
exactly as in the source. -/
def monthsLoop : Nat → CalDate → CalDate → List DateRange
  | 0, _, _ => []
  | fuel + 1, cur, today =>
    if dateLe cur today then
      { start := isoDate (mkDate cur.year cur.month 2),
        endDate := isoDate (mkDate cur.year (cur.month + 1) 1) } ::
        monthsLoop fuel (mkDate cur.year (cur.month + 1) cur.day) today
    else []

/-- The function `getMonthsRange` from src/app.js: for every month from January 2000
while the month's first day is not after `today`, the pair
`{start: Date(y, m, 2), end: Date(y, m + 1, 1)}` in ISO form; the list is
reversed so the most recent month comes first.  `today.year * 12 +
today.month + 1` fuel always suffices because the loop starts at year
2000 and advances one month per iteration. -/
def getMonthsRange (today : CalDate) : List DateRange :=
  (monthsLoop (today.year * 12 + today.month + 1) ⟨2000, 0, 1⟩ today).reverse

/-- Strict lexicographic order on character lists (kernel-reducible helper
for stating that ISO date strings decrease along a list). -/
def charListLt : List Char → List Char → Bool
  | [], [] => false
  | [], _ :: _ => true
  | _ :: _, [] => false
  | a :: as, b :: bs => a < b || (a == b && charListLt as bs)

/-- Strict lexicographic order on strings, used to state "descending" for
ISO `YYYY-MM-DD` strings (on which it agrees with chronological order). -/
def strLtB (a b : String) : Bool :=
  charListLt a.toList b.toList

/-- Strictly descending `start` fields along a list of date ranges
(most recent first). -/
def pairwiseDescStart : List DateRange → Bool
  | [] => true
  | [_] => true
  | a :: b :: rest => strLtB b.start a.start && pairwiseDescStart (b :: rest)

/-! JS `parseFloat`, modelled on the numeric strings the accounting API
produces: optional leading whitespace, optional sign, decimal digits with an
optional fractional part and an optional exponent; trailing characters are
ignored, and a string with no leading numeral parses to NaN (`none`). -/

def digitVal (c : Char) : Option Nat :=
  if c.isDigit then some (c.toNat - 48) else none

/-- Longest leading run of decimal digits, and the rest of the input. -/
def takeDigits : List Char → List Nat × List Char
  | [] => ([], [])
  | c :: rest =>
    match digitVal c with
    | some d =>
      let p := takeDigits rest
      (d :: p.1, p.2)
    | none => ([], c :: rest)

def digitsToNat (ds : List Nat) : Nat :=
  ds.foldl (fun a d => a * 10 + d) 0

/-- Sign and remainder after an optional leading `+`/`-`. -/
def splitSign : List Char → Bool × List Char
  | '-' :: rest => (true, rest)
  | '+' :: rest => (false, rest)
  | cs => (false, cs)

/-- Exponent value after the `e`/`E` marker; an exponent with no digits is
ignored (treated as trailing garbage), as `parseFloat` does. -/
def expValue (cs : List Char) : Int :=
  let p := splitSign cs
  let d := takeDigits p.2
  if d.1.isEmpty then 0
  else if p.1 then -(digitsToNat d.1 : Int) else (digitsToNat d.1 : Int)

/-- JS `parseFloat`, with the parsed value represented exactly as the
fraction `num / den` (`den` a positive power of ten); `none` models `NaN`.
The represented value is
`sign * (intDigits.fracDigits) * 10 ^ exponent`.  (IEEE rounding of the
decimal literal is immaterial here: the only consumer tests the value
against exactly 0, and a decimal literal rounds to 0.0 only when its
mantissa digits are all zero, overflow/underflow of absurd exponents
aside.) -/
def parseFloatRep (s : String) : Option (Int × Nat) :=
  let cs := s.toList.dropWhile
    (fun c => c == ' ' || c == '\t' || c == '\n' || c == '\r')
  let sgn := splitSign cs
  let ip := takeDigits sgn.2
  let fp :=
    match ip.2 with
    | '.' :: rest => takeDigits rest
    | _ => ([], ip.2)
  if ip.1.isEmpty && fp.1.isEmpty then none
  else
    let mant : Nat :=
      digitsToNat ip.1 * 10 ^ fp.1.length + digitsToNat fp.1
    let e : Int :=
      match fp.2 with
      | 'e' :: rest => expValue rest
      | 'E' :: rest => expValue rest
      | _ => 0
    let num : Int :=
      (if sgn.1 then -(mant : Int) else (mant : Int)) * 10 ^ e.toNat
    let den : Nat := 10 ^ fp.1.length * 10 ^ (-e).toNat
    some (num, den)

/-- The value `parseFloatRep` represents, as a rational. -/
def parsedValue (p : Int × Nat) : ℚ :=
  (p.1 : ℚ) / (p.2 : ℚ)

/-- The test `value !== 0.0` applied to
`subRow.cells[1].value ? parseFloat(subRow.cells[1].value) : NaN`:
a falsy (empty) cell gives `NaN`, and `NaN !== 0.0` is `true`, so only a
cell that parses to exactly 0 fails the test.  A fraction with a
power-of-ten denominator is 0 exactly when its numerator is. -/
def jsParsedNonzero (s : String) : Bool :=
  if s == "" then true
  else
    match parseFloatRep s with
    | none => true
    | some p => p.1 != 0

/-! Xero report rows, as consumed by the P&L and Balance Sheet fetchers.
The code reads two levels: top-level rows (`Header` rows carry cells,
`Section` rows carry a title and nested rows) and nested sub-rows (`Row` /
`SummaryRow` with cells).  A cell is its `value` string; an absent value is
the empty string, which is exactly how the code's truthiness checks and
`|| ""` defaults treat it.  A section with an absent `rows` array is
modelled with an empty list. -/

inductive RowType
  | Header
  | Section
  | Row
  | SummaryRow
deriving DecidableEq, Repr

structure SubRow where
  rowType : RowType
  cells : List String
deriving DecidableEq, Repr

structure ReportRow where
  rowType : RowType
  title : String
  cells : List String
  rows : List SubRow
deriving DecidableEq, Repr

structure Report where
  rows : List ReportRow
deriving DecidableEq, Repr

/-- One month's fetch outcome, paired with its date range: `none` models a
rejected remote call (timeout, API failure) or a response with no `reports`
array — every such case is caught by the per-month `catch` and skips the
month. -/
abbrev MonthFetch := DateRange × Option (List Report)

/-- The test `subRow.rowType === "Row" || subRow.rowType === "SummaryRow"`. -/
def subRowIsDataRow (sr : SubRow) : Bool :=
  sr.rowType == RowType.Row || sr.rowType == RowType.SummaryRow

/-- One sub-row of the signal scan: a `Row` whose first cell is `label` and
whose second cell passes the `value !== 0.0` test (the scan requires
`subRow.cells.length > 0`; scanning a `Row` with exactly one cell throws in
JS and is modelled separately by `scanThrows`). -/
def signalSubRow (label : String) (sr : SubRow) : Bool :=
  sr.rowType == RowType.Row && !sr.cells.isEmpty &&
    sr.cells.getD 0 "" == label && jsParsedNonzero (sr.cells.getD 1 "")

/-- The scan `subRow.cells[1].value` throws a `TypeError` exactly when a
scanned `Row` has one cell (`cells[1]` is `undefined`); the per-month
`catch` then skips the rest of the month. -/
def scanThrows (srs : List SubRow) : Bool :=
  srs.any (fun sr => sr.rowType == RowType.Row && sr.cells.length == 1)

/-! The Profit-and-Loss fetcher (`fetchAndUpdateProfitAndLoss`).  Its month
loop is a fold over the date ranges, with the fetch results supplied as
data; per month it scans the report rows (mutating `currentMonth`,
`includeMonth`, the consecutive-zero counter, the processed-month set and
the flattened output rows), which is an `Except`-valued fold whose error
case carries the state at the point where the JS scan would throw. -/

/-- Mutable state of the scan over one month's reports.  `currentMonth` is
reset per report; the other fields live across the whole run. -/
structure PnlScan where
  currentMonth : String
  includeMonth : Bool
  zeroCount : Nat
  processed : List String
  rows : List (List String)
deriving DecidableEq, Repr

/-- Rows pushed for one top-level row when a month is flattened: a
`[currentMonth, row.title]` pair for a titled section, then
`[currentMonth, ...cells]` for each nested `Row`/`SummaryRow` (the source's
`cell.value || ""` is the identity on our string cells). -/
def pnlFlattenSection (currentMonth : String) (r : ReportRow) : List (List String) :=
  if r.rowType == RowType.Section then
    (if r.title != "" then [[currentMonth, r.title]] else []) ++
      (r.rows.filter subRowIsDataRow).map (fun sr => currentMonth :: sr.cells)
  else []

def pnlFlattenReport (currentMonth : String) (rep : Report) : List (List String) :=
  (rep.rows.map (pnlFlattenSection currentMonth)).flatten

/-- One top-level row of the P&L scan: `Header` rows update `currentMonth`;
an empty-title `Section` is scanned for nonzero "Gross Profit"/"Net Profit"
lines, and on a hit marks the month included, resets the zero counter, and
— for a new nonempty `currentMonth` — flattens the whole report. -/
def pnlRowStep (rep : Report) (s : PnlScan) (r : ReportRow) : Except PnlScan PnlScan :=
  let s1 :=
    if r.rowType == RowType.Header && r.cells.length > 1 then
      { s with currentMonth := r.cells.getD 1 "" }
    else s
  if r.rowType == RowType.Section && r.title == "" then
    if scanThrows r.rows then .error s1
    else
      let hasGrossProfit := r.rows.any (signalSubRow "Gross Profit")
      let hasNetProfit := r.rows.any (signalSubRow "Net Profit")
      if hasGrossProfit || hasNetProfit then
        let s2 := { s1 with includeMonth := true, zeroCount := 0 }
        if s2.currentMonth != "" && !s2.processed.contains s2.currentMonth then
          .ok { s2 with processed := s2.processed ++ [s2.currentMonth],
                        rows := s2.rows ++ pnlFlattenReport s2.currentMonth rep }
        else .ok s2
      else .ok s1
  else .ok s1

def pnlScanReport (s : PnlScan) (rep : Report) : Except PnlScan PnlScan :=
  rep.rows.foldlM (pnlRowStep rep) { s with currentMonth := "" }

def pnlScanReports (reports : List Report) (s : PnlScan) : Except PnlScan PnlScan :=
  reports.foldlM pnlScanReport s

/-- State of the P&L month loop. -/
structure PnlState where
  formattedRows : List (List String)
  processedMonths : List String
  zeroCount : Nat
  stop : Bool
  fetchedCount : Nat
deriving DecidableEq, Repr

/-- One iteration of the P&L month loop (the body of
`for (const {start, end} of dates)` after the `stopProcessing` guard):
fetch, scan, then — unless the scan threw — count a zero month, push the
two blank separator rows, and set `stopProcessing` at ten consecutive
zero months. -/
def pnlProcessMonth (st : PnlState) (m : MonthFetch) : PnlState :=
  match m.2 with
  | none =>
    { st with fetchedCount := st.fetchedCount + 1 }
  | some reports =>
    let init : PnlScan :=
      { currentMonth := "", includeMonth := false, zeroCount := st.zeroCount,
        processed := st.processedMonths, rows := st.formattedRows }
    match pnlScanReports reports init with
    | .error s =>
      { st with zeroCount := s.zeroCount, processedMonths := s.processed,
                formattedRows := s.rows, fetchedCount := st.fetchedCount + 1 }
    | .ok s =>
      let zeroNow := if s.includeMonth then s.zeroCount else s.zeroCount + 1
      { formattedRows := s.rows ++ [[], []],
        processedMonths := s.processed,
        zeroCount := zeroNow,
        stop := st.stop || zeroNow == 10,
        fetchedCount := st.fetchedCount + 1 }

def pnlLoop (st : PnlState) : List MonthFetch → PnlState
  | [] => st
  | m :: ms => if st.stop then st else pnlLoop (pnlProcessMonth st m) ms

def pnlInit : PnlState :=
  { formattedRows := [], processedMonths := [], zeroCount := 0,
    stop := false, fetchedCount := 0 }

def pnlRun (months : List MonthFetch) : PnlState :=
  pnlLoop pnlInit months

/-- The per-row scan-throw condition: an empty-title section one of whose
scanned `Row`s would make `cells[1].value` throw. -/
def rowThrows (r : ReportRow) : Bool :=
  r.rowType == RowType.Section && r.title == "" && scanThrows r.rows

/-- The per-row P&L signal condition: an empty-title section with a nonzero
"Gross Profit" or "Net Profit" row (exactly the condition that sets
`includeMonth`). -/
def rowSignalPnl (r : ReportRow) : Bool :=
  r.rowType == RowType.Section && r.title == "" &&
    (r.rows.any (signalSubRow "Gross Profit") ||
      r.rows.any (signalSubRow "Net Profit"))

/-- A report contains a P&L signal row. -/
def reportSignalPnl (rep : Report) : Bool :=
  rep.rows.any rowSignalPnl

def monthSignalPnl (m : MonthFetch) : Bool :=
  match m.2 with
  | none => false
  | some reports => reports.any reportSignalPnl

/-- No empty-title section of the report makes the scan throw. -/
def reportScanSafe (rep : Report) : Bool :=
  rep.rows.all fun r => !(rowThrows r)

def monthScanSafe (m : MonthFetch) : Bool :=
  match m.2 with
  | none => true
  | some reports => reports.all reportScanSafe

/-- A successfully fetched, safely scanned month with no nonzero profit
signal (the months the early-stop counter counts). -/
def pnlZeroMonth (m : MonthFetch) : Bool :=
  m.2.isSome && monthScanSafe m && !monthSignalPnl m

/-- A successfully fetched, safely scanned month with a nonzero profit
signal (the months that reset the counter). -/
def pnlSignalMonth (m : MonthFetch) : Bool :=
  m.2.isSome && monthScanSafe m && monthSignalPnl m

/-- The `currentMonth` value after one row: `Header` rows with at least two
cells overwrite it (proof-support helper). -/
def newCurrentMonth (cm : String) (r : ReportRow) : String :=
  if r.rowType == RowType.Header && r.cells.length > 1 then r.cells.getD 1 "" else cm

/-- Projection of the P&L scan state to the fields that determine the
output rows (proof support for the row/separator structure statement). -/
structure PnlEmit where
  currentMonth : String
  processed : List String
  rows : List (List String)
deriving DecidableEq, Repr

/-- The row-emission part of `pnlRowStep`, on the projected state (the
`includeMonth`/`zeroCount` flags do not influence which rows are pushed). -/
def pnlEmitRowStep (rep : Report) (s : PnlEmit) (r : ReportRow) :
    Except PnlEmit PnlEmit :=
  let s1 :=
    if r.rowType == RowType.Header && r.cells.length > 1 then
      { s with currentMonth := r.cells.getD 1 "" }
    else s
  if r.rowType == RowType.Section && r.title == "" then
    if scanThrows r.rows then .error s1
    else
      let hasGrossProfit := r.rows.any (signalSubRow "Gross Profit")
      let hasNetProfit := r.rows.any (signalSubRow "Net Profit")
      if hasGrossProfit || hasNetProfit then
        if s1.currentMonth != "" && !s1.processed.contains s1.currentMonth then
          .ok { s1 with processed := s1.processed ++ [s1.currentMonth],
                        rows := s1.rows ++ pnlFlattenReport s1.currentMonth rep }
        else .ok s1
      else .ok s1
  else .ok s1

def pnlEmitReport (s : PnlEmit) (rep : Report) : Except PnlEmit PnlEmit :=
  rep.rows.foldlM (pnlEmitRowStep rep) { s with currentMonth := "" }

/-- The expected P&L output per the (amended) claim: every successfully
fetched month appends its flattened blocks — `[month, title]` and
`[month, ...cells]` rows, empty for non-included or already-processed
months — followed by exactly two blank separator rows; a month whose fetch
fails, or whose scan throws mid-month, appends no separator. -/
def pnlExpectedRows (processed : List String) (rows : List (List String)) :
    List MonthFetch → List (List String)
  | [] => rows
  | (_, none) :: ms => pnlExpectedRows processed rows ms
  | (_, some reports) :: ms =>
    match reports.foldlM pnlEmitReport
        { currentMonth := "", processed := processed, rows := rows } with
    | .error s => pnlExpectedRows s.processed s.rows ms
    | .ok s => pnlExpectedRows s.processed (s.rows ++ [[], []]) ms

def pnlProj (s : PnlScan) : PnlEmit :=
  { currentMonth := s.currentMonth, processed := s.processed, rows := s.rows }

def pnlProjE : Except PnlScan PnlScan → Except PnlEmit PnlEmit
  | Except.ok s => Except.ok (pnlProj s)
  | Except.error s => Except.error (pnlProj s)

/-! The Balance Sheet fetcher (`fetchAndUpdateBalanceSheet`).  JS `Map`s and
plain objects keyed by strings are modelled as association lists with
JS update semantics: setting an existing key replaces its value in place,
setting a new key appends it (preserving JS insertion order, which the
output iteration relies on). -/

/-- Lookup in an association list (JS `map.get(k)` / `obj[k]`). -/
def alGet {α : Type} : List (String × α) → String → Option α
  | [], _ => none
  | (k', v) :: rest, k => if k' == k then some v else alGet rest k

/-- Update in an association list (JS `map.set(k, v)` / `obj[k] = v`):
replace the first binding of `k`, or append a new one. -/
def alSet {α : Type} : List (String × α) → String → α → List (String × α)
  | [], k, v => [(k, v)]
  | (k', v') :: rest, k, v =>
    if k' == k then (k, v) :: rest else (k', v') :: alSet rest k v

/-- JS `Set.add`: append the element unless already present (insertion
order preserved). -/
def setAdd (l : List String) (k : String) : List String :=
  if l.contains k then l else l ++ [k]

/-- The per-label object stored in `sectionDataMap`: month label → value. -/
abbrev LabelObj := List (String × String)

/-- One month's slot of `sectionDataMap`: line-item label → `LabelObj`. -/
abbrev MonthMap := List (String × LabelObj)

/-- The whole `sectionDataMap`: range start → `MonthMap`. -/
abbrev BsMap := List (String × MonthMap)

/-- The store `if (!map[c0]) map[c0] = {}; map[c0][label] = c1` on one
month's object. -/
def labelStore (mm : MonthMap) (c0 label c1 : String) : MonthMap :=
  match alGet mm c0 with
  | none => alSet mm c0 [(label, c1)]
  | some obj => alSet mm c0 (alSet obj label c1)

/-- The store on `sectionDataMap` at the current range `start`.  The `none`
branch is unreachable in the run: every iterated `start` is initialised
with an empty object before the loop (in JS, `map.get(start)` being
`undefined` would throw). -/
def bsStore (m : BsMap) (startS c0 label c1 : String) : BsMap :=
  match alGet m startS with
  | none => m
  | some mm => alSet m startS (labelStore mm c0 label c1)

/-- Accumulator of the balance-sheet flatten pass: the `uniqueKeys` set and
the data map. -/
structure BsAcc where
  uniqueKeys : List String
  dataMap : BsMap
deriving DecidableEq, Repr

/-- The inner `row.rows.forEach` of the flatten pass: for each
`Row`/`SummaryRow`, add `cells[0]?.value || ""` to `uniqueKeys` and store
`cells[1]?.value || ""` under it for this month. -/
def bsFlattenSubRows (startS label : String) (acc : BsAcc) :
    List SubRow → BsAcc
  | [] => acc
  | sr :: rest =>
    if subRowIsDataRow sr then
      let c0 := sr.cells.getD 0 ""
      let c1 := sr.cells.getD 1 ""
      bsFlattenSubRows startS label
        { uniqueKeys := setAdd acc.uniqueKeys c0,
          dataMap := bsStore acc.dataMap startS c0 label c1 } rest
    else bsFlattenSubRows startS label acc rest

/-- The `report.rows.forEach` of the flatten pass: every `Section` row adds
its (truthy) title to `uniqueKeys` and flattens its sub-rows. -/
def bsFlattenRows (startS label : String) (acc : BsAcc) :
    List ReportRow → BsAcc
  | [] => acc
  | r :: rest =>
    if r.rowType == RowType.Section then
      let acc1 :=
        if r.title != "" then
          { acc with uniqueKeys := setAdd acc.uniqueKeys r.title }
        else acc
      bsFlattenRows startS label (bsFlattenSubRows startS label acc1 r.rows) rest
    else bsFlattenRows startS label acc rest

/-- Mutable state of the scan over one month's balance-sheet reports.
`flattened` is a ghost trace recording, with the range start, each report
the flatten pass was applied to. -/
structure BsScan where
  currentMonth : String
  includeMonth : Bool
  zeroCount : Nat
  processed : List String
  uniqueKeys : List String
  dataMap : BsMap
  flattened : List (String × Report)
deriving DecidableEq, Repr

/-- The per-row balance-sheet signal condition: an empty-title section with
a nonzero "Net Assets" row. -/
def rowSignalBs (r : ReportRow) : Bool :=
  r.rowType == RowType.Section && r.title == "" &&
    r.rows.any (signalSubRow "Net Assets")

/-- A report contains the balance-sheet signal. -/
def reportSignalBs (rep : Report) : Bool :=
  rep.rows.any rowSignalBs

def monthSignalBs (m : MonthFetch) : Bool :=
  match m.2 with
  | none => false
  | some reports => reports.any reportSignalBs

/-- A successfully fetched, safely scanned month with zero "Net Assets". -/
def bsZeroMonth (m : MonthFetch) : Bool :=
  m.2.isSome && monthScanSafe m && !monthSignalBs m

/-- A successfully fetched, safely scanned month with nonzero "Net
Assets". -/
def bsSignalMonth (m : MonthFetch) : Bool :=
  m.2.isSome && monthScanSafe m && monthSignalBs m

/-- One top-level row of the balance-sheet scan, mirroring `pnlRowStep`
with the "Net Assets" signal and the cross-tab stores in place of the
row flatten. -/
def bsRowStep (rep : Report) (startS label : String) (s : BsScan)
    (r : ReportRow) : Except BsScan BsScan :=
  let s1 :=
    if r.rowType == RowType.Header && r.cells.length > 1 then
      { s with currentMonth := r.cells.getD 1 "" }
    else s
  if r.rowType == RowType.Section && r.title == "" then
    if scanThrows r.rows then .error s1
    else
      let hasNetAssets := r.rows.any (signalSubRow "Net Assets")
      if hasNetAssets then
        let s2 := { s1 with includeMonth := true, zeroCount := 0 }
        if s2.currentMonth != "" && !s2.processed.contains s2.currentMonth then
          let acc := bsFlattenRows startS label
            { uniqueKeys := s2.uniqueKeys, dataMap := s2.dataMap } rep.rows
          .ok { s2 with processed := s2.processed ++ [s2.currentMonth],
                        uniqueKeys := acc.uniqueKeys,
                        dataMap := acc.dataMap,
                        flattened := s2.flattened ++ [(startS, rep)] }
        else .ok s2
      else .ok s1
  else .ok s1

def bsScanReport (startS label : String) (s : BsScan) (rep : Report) :
    Except BsScan BsScan :=
  rep.rows.foldlM (bsRowStep rep startS label) { s with currentMonth := "" }

def bsScanReports (startS label : String) (reports : List Report)
    (s : BsScan) : Except BsScan BsScan :=
  reports.foldlM (bsScanReport startS label) s

/-- State of the balance-sheet month loop. -/
structure BsState where
  processedMonths : List String
  zeroCount : Nat
  stop : Bool
  uniqueKeys : List String
  dataMap : BsMap
  fetchedCount : Nat
  flattened : List (String × Report)
deriving DecidableEq, Repr

/-- The month label `"${start} to ${end}"` used as the inner object key. -/
def bsMonthLabel (d : DateRange) : String :=
  d.start ++ " to " ++ d.endDate

/-- One iteration of the balance-sheet month loop. -/
def bsProcessMonth (st : BsState) (m : MonthFetch) : BsState :=
  match m.2 with
  | none =>
    { st with fetchedCount := st.fetchedCount + 1 }
  | some reports =>
    let init : BsScan :=
      { currentMonth := "", includeMonth := false, zeroCount := st.zeroCount,
        processed := st.processedMonths, uniqueKeys := st.uniqueKeys,
        dataMap := st.dataMap, flattened := st.flattened }
    match bsScanReports m.1.start (bsMonthLabel m.1) reports init with
    | .error s =>
      { st with zeroCount := s.zeroCount, processedMonths := s.processed,
                uniqueKeys := s.uniqueKeys, dataMap := s.dataMap,
                flattened := s.flattened,
                fetchedCount := st.fetchedCount + 1 }
    | .ok s =>
      let zeroNow := if s.includeMonth then s.zeroCount else s.zeroCount + 1
      { processedMonths := s.processed,
        zeroCount := zeroNow,
        stop := st.stop || zeroNow == 10,
        uniqueKeys := s.uniqueKeys,
        dataMap := s.dataMap,
        fetchedCount := st.fetchedCount + 1,
        flattened := s.flattened }

def bsLoop (st : BsState) : List MonthFetch → BsState
  | [] => st
  | m :: ms => if st.stop then st else bsLoop (bsProcessMonth st m) ms

/-- Initial balance-sheet state: `sectionDataMap` is pre-seeded with an
empty object for every date range's start. -/
def bsInit (months : List MonthFetch) : BsState :=
  { processedMonths := [], zeroCount := 0, stop := false, uniqueKeys := [],
    dataMap := months.foldl (fun m p => alSet m p.1.start []) [],
    fetchedCount := 0, flattened := [] }

def bsRun (months : List MonthFetch) : BsState :=
  bsLoop (bsInit months) months

/-- The month-column filter of the output stage: a date range is kept when
its `sectionDataMap` slot exists and has at least one key. -/
def bsIncludedDates (months : List MonthFetch) (m : BsMap) : List DateRange :=
  (months.map (fun p => p.1)).filter fun d =>
    match alGet m d.start with
    | none => false
    | some mm => !mm.isEmpty

/-- The output header row: `"Heads"` then the `end` date of every included
month. -/
def bsHeaderValues (months : List MonthFetch) (st : BsState) : List String :=
  "Heads" :: (bsIncludedDates months st.dataMap).map (fun d => d.endDate)

/-- One output cell: `monthData && monthData[key] ?
monthData[key][monthLabel] || "" : ""`. -/
def bsCellValue (m : BsMap) (key : String) (d : DateRange) : String :=
  match alGet m d.start with
  | none => ""
  | some mm =>
    match alGet mm key with
    | none => ""
    | some obj =>
      match alGet obj (bsMonthLabel d) with
      | none => ""
      | some v => v

/-- The cross-tab output rows: one row per `uniqueKeys` entry, one cell per
included month. -/
def bsFormattedRows (months : List MonthFetch) (st : BsState) :
    List (List String) :=
  st.uniqueKeys.map fun key =>
    key :: (bsIncludedDates months st.dataMap).map (bsCellValue st.dataMap key)

/-- A `Row`/`SummaryRow` of some section of `rep` whose first cell is `k`
(proof support: exactly the sub-rows whose values the flatten pass
stores). -/
def repHasSubHead (rep : Report) (k : String) : Bool :=
  rep.rows.any fun r =>
    r.rowType == RowType.Section &&
      r.rows.any fun sr => subRowIsDataRow sr && sr.cells.getD 0 "" == k

/-- Whether `k` has a stored object for the month starting at `startS`. -/
def bsHasLabelAt (m : BsMap) (k startS : String) : Bool :=
  match alGet m startS with
  | none => false
  | some mm => (alGet mm k).isSome

/-- Invariant tying the data map to the key set and the flatten trace:
every stored label is in `uniqueKeys`, and comes from a data row of a
flattened report of that month. -/
def bsInvariant (flat : List (String × Report)) (keys : List String)
    (m : BsMap) : Prop :=
  ∀ startS k, bsHasLabelAt m k startS = true →
    k ∈ keys ∧ ∃ rep, (startS, rep) ∈ flat ∧ repHasSubHead rep k = true

/-- Invariant: every nonempty section title of a flattened report is in the
key set. -/
def bsTitlesInv (flat : List (String × Report)) (keys : List String) : Prop :=
  ∀ p ∈ flat, ∀ r ∈ p.2.rows, r.rowType = RowType.Section → r.title ≠ "" →
    r.title ∈ keys

def bsScanInv (s : BsScan) : Prop :=
  bsInvariant s.flattened s.uniqueKeys s.dataMap ∧
    bsTitlesInv s.flattened s.uniqueKeys

def bsStateInv (st : BsState) : Prop :=
  bsInvariant st.flattened st.uniqueKeys st.dataMap ∧
    bsTitlesInv st.flattened st.uniqueKeys

/-- A predicate on both outcomes of an `Except`-valued scan. -/
def exceptInv (P : BsScan → Prop) : Except BsScan BsScan → Prop
  | Except.ok s => P s
  | Except.error s => P s

/-! The invoice fetcher (`fetchAndUpdateInvoices`): filter to
ACCREC + AUTHORISED/PAID, sort by invoice date descending, project to an
11-field row.  Invoice dates arrive as strings and are consumed through
`new Date(...)`; they are modelled already parsed, as `CalDate`, on which
the JS timestamp comparison is `dateLe`. -/

/-- The month names used by `toLocaleDateString("en-GB", {month: "short"})`. -/
def monthShortName (m : Nat) : String :=
  ["Jan", "Feb", "Mar", "Apr", "May", "Jun", "Jul", "Aug", "Sep", "Oct",
    "Nov", "Dec"].getD m ""

/-- The function `formatDate` from src/app.js:
`toLocaleDateString("en-GB", {day: "2-digit", month: "short",
year: "numeric"})`, e.g. `"15 Mar 2024"`. -/
def formatDate (d : CalDate) : String :=
  padTwo d.day ++ " " ++ monthShortName d.month ++ " " ++ toString d.year

structure Contact where
  name : String
deriving DecidableEq, Repr

structure Invoice where
  type : String
  invoiceNumber : String
  reference : String
  amountDue : ℚ
  amountPaid : ℚ
  contact : Contact
  date : CalDate
  dueDate : CalDate
  status : String
  total : ℚ
  currencyCode : String
deriving DecidableEq, Repr

/-- A spreadsheet cell value: the projected rows mix strings and numbers. -/
inductive CellV
  | s (v : String)
  | n (v : ℚ)
deriving DecidableEq, Repr

/-- The invoice filter: `type === "ACCREC" && (status === "AUTHORISED" ||
status === "PAID")`. -/
def keepInvoice (inv : Invoice) : Bool :=
  inv.type == "ACCREC" &&
    (inv.status == "AUTHORISED" || inv.status == "PAID")

/-- The 11-field projection of one invoice, in source order. -/
def invoiceRow (inv : Invoice) : List CellV :=
  [CellV.s inv.type, CellV.s inv.invoiceNumber, CellV.s inv.reference,
    CellV.n inv.amountDue, CellV.n inv.amountPaid, CellV.s inv.contact.name,
    CellV.s (formatDate inv.date), CellV.s (formatDate inv.dueDate),
    CellV.s inv.status, CellV.n inv.total, CellV.s inv.currencyCode]

/-- The filtered invoices, then sorted by
`(a, b) => new Date(b.date) - new Date(a.date)`: date descending.  JS
`Array.prototype.sort` is stable and, for this consistent comparator,
orders by the comparator; both hold of the stable `List.mergeSort` with
"a may precede b iff b.date <= a.date". -/
def sortedAccrec (invs : List Invoice) : List Invoice :=
  (invs.filter keepInvoice).mergeSort (fun a b => dateLe b.date a.date)

/-- The output rows of the invoice fetcher. -/
def invoiceRows (invs : List Invoice) : List (List CellV) :=
  (sortedAccrec invs).map invoiceRow

/-! The token store (`saveTokenSet`, the `/stop` endpoint).  The Mongo
collection is modelled as the list of its documents; `findOne` reads the
first, `deleteMany` removes all. -/

structure Tenant where
  tenantId : String
deriving DecidableEq, Repr

/-- The token response consumed by `saveTokenSet` (`expires_in` is in
seconds). -/
structure XeroTokenSet where
  access_token : String
  refresh_token : String
  expires_in : Int
  id_token : String
  scope : String
  token_type : String
deriving DecidableEq, Repr

/-- One stored Credential document (`expires_at` is an absolute timestamp
in milliseconds). -/
structure TokenDoc where
  access_token : String
  refresh_token : String
  expires_at : Int
  id_token : String
  scope : String
  token_type : String
  tenant_id : String
deriving DecidableEq, Repr

/-- The document `saveTokenSet` writes. -/
def mkTokenDoc (ts : XeroTokenSet) (expiresAt : Int) (tenantId : String) :
    TokenDoc :=
  { access_token := ts.access_token, refresh_token := ts.refresh_token,
    expires_at := expiresAt, id_token := ts.id_token, scope := ts.scope,
    token_type := ts.token_type, tenant_id := tenantId }

/-- The function `saveTokenSet` from src/app.js: reads `xero.tenants[0]?.tenantId`
(an absent tenant or an absent id is `undefined`, modelled `""`), throws
"No tenant ID available." when that is falsy — before any store access —
and otherwise computes `expiresAt = Date.now() + expires_in * 1000` and
either updates the `findOne` document in place or inserts a new one.
Returns the error message (if any) and the resulting store; on error the
store is returned unchanged, since the throw precedes every write. -/
def saveTokenSet (tenants : List Tenant) (now : Int) (ts : XeroTokenSet)
    (store : List TokenDoc) : Option String × List TokenDoc :=
  let tenantId := ((tenants.head?).map Tenant.tenantId).getD ""
  if tenantId == "" then (some "No tenant ID available.", store)
  else
    let expiresAt := now + ts.expires_in * 1000
    match store with
    | _tokenDoc :: rest =>
      (none, mkTokenDoc ts expiresAt tenantId :: rest)
    | [] => (none, [mkTokenDoc ts expiresAt tenantId])

/-- The operations that touch the Credential store. -/
inductive StoreOp
  | save (tenants : List Tenant) (now : Int) (ts : XeroTokenSet)
  | stopJob

/-- Effect of one operation on the store: `saveTokenSet`'s upsert, or the
`POST /stop` handler's `Token.deleteMany()`. -/
def applyOp (store : List TokenDoc) (op : StoreOp) : List TokenDoc :=
  match op with
  | StoreOp.save tenants now ts => (saveTokenSet tenants now ts store).2
  | StoreOp.stopJob => []

/-! The HTTP status surfaced on the invoice path (`fetchAndUpdateInvoices`
reached from `GET /BalanceSheet` or the cron job). -/

/-- Outcome of the remote invoice fetch: `err code` carries `error.code`
(e.g. `"ETIMEDOUT"` for a timeout). -/
inductive InvoiceFetchOutcome
  | ok (invoices : List Invoice)
  | err (code : String)
deriving DecidableEq, Repr

/-- The HTTP status `fetchAndUpdateInvoices` writes to the triggering
request, by fetch outcome.  The inner catch of the source reads
`error.code` and calls `res.status(504)` / `res.status(500)` — but no
`res` is bound in `fetchAndUpdateInvoices` (the function takes no
parameters), so evaluating `res` raises a `ReferenceError`; the outer
catch swallows it (`console.error` only) and the function returns without
writing any status, whatever the error code was.  The `GET /BalanceSheet`
handler then proceeds and answers 200 with its HTML page. -/
def invoiceFetchHttpStatus (o : InvoiceFetchOutcome) : Option Nat :=
  match o with
  | InvoiceFetchOutcome.ok _ => none
  | InvoiceFetchOutcome.err _ => none

/-! The spreadsheet writer: each run clears a range of the target sheet and
writes `[headerValues, ...rows]` at A1.  The sheet is modelled as a cell
grid: row index → column index → value. -/

def Sheet : Type := Nat → Nat → String

/-- The invoice sheet's clear: an `updateCells` request over the whole
sheet (no row/column bounds), clearing every value. -/
def clearAllValues (_s : Sheet) : Sheet := fun _ _ => ""

/-- The balance sheet's clear: rows 0–1000, columns 0–`headerValues.length`. -/
def clearRect (rowBound colBound : Nat) (s : Sheet) : Sheet :=
  fun r c => if r < rowBound && c < colBound then "" else s r c

/-- The write `values.update` at A1: every cell covered by the value matrix is
overwritten; cells outside it keep their contents. -/
def writeValuesAt (vals : List (List String)) (s : Sheet) : Sheet :=
  fun r c =>
    match (vals.get? r).bind (fun row => row.get? c) with
    | some v => v
    | none => s r c

/-- One run of the invoice sheet write: unbounded clear, then header and
rows at A1. -/
def invoiceSheetWrite (header : List String) (rows : List (List String))
    (s : Sheet) : Sheet :=
  writeValuesAt (header :: rows) (clearAllValues s)

/-- One run of the balance sheet write: clear of 1000 rows by the header
width, then header and rows at A1. -/
def bsSheetWrite (header : List String) (rows : List (List String))
    (s : Sheet) : Sheet :=
  writeValuesAt (header :: rows) (clearRect 1000 header.length s)

/-! Concrete report data used by witnesses and counterexamples. -/

/-- A P&L report whose profit lines are both exactly zero. -/
def repZeroPnl : Report :=
  ⟨[⟨RowType.Header, "", ["", "Mar 2024"], []⟩,
    ⟨RowType.Section, "", [],
      [⟨RowType.Row, ["Gross Profit", "0"]⟩,
        ⟨RowType.Row, ["Net Profit", "0"]⟩]⟩]⟩

/-- A balance-sheet report whose "Net Assets" line is exactly zero. -/
def repZeroBs : Report :=
  ⟨[⟨RowType.Header, "", ["", "Mar 2024"], []⟩,
    ⟨RowType.Section, "", [],
      [⟨RowType.Row, ["Net Assets", "0"]⟩]⟩]⟩

def rangeMar24 : DateRange := ⟨"2024-03-02", "2024-04-01"⟩

def rangeFeb24 : DateRange := ⟨"2024-02-02", "2024-03-01"⟩

/-- A zero-profit P&L month. -/
def monthZeroPnl : MonthFetch := (rangeMar24, some [repZeroPnl])

/-- A zero-"Net Assets" balance-sheet month. -/
def monthZeroBs : MonthFetch := (rangeMar24, some [repZeroBs])

/-- A P&L report with a nonzero Net Profit (a signal month). -/
def repSignalPnl : Report :=
  ⟨[⟨RowType.Header, "", ["", "Mar 2024"], []⟩,
    ⟨RowType.Section, "", [],
      [⟨RowType.Row, ["Gross Profit", "0"]⟩,
        ⟨RowType.Row, ["Net Profit", "12.5"]⟩]⟩]⟩

def monthSignalPnlEx : MonthFetch := (rangeMar24, some [repSignalPnl])

/-- A March balance-sheet report: nonzero "Net Assets", plus a titled
section "Assets" holding a "Cash" row. -/
def repBsMar : Report :=
  ⟨[⟨RowType.Header, "", ["", "31 Mar 2024"], []⟩,
    ⟨RowType.Section, "", [],
      [⟨RowType.Row, ["Net Assets", "5"]⟩]⟩,
    ⟨RowType.Section, "Assets", [],
      [⟨RowType.Row, ["Cash", "7"]⟩]⟩]⟩

/-- A February balance-sheet report: nonzero "Net Assets", plus a titled
section "Assets" holding a "Bank" row (no "Cash"). -/
def repBsFeb : Report :=
  ⟨[⟨RowType.Header, "", ["", "29 Feb 2024"], []⟩,
    ⟨RowType.Section, "", [],
      [⟨RowType.Row, ["Net Assets", "3"]⟩]⟩,
    ⟨RowType.Section, "Assets", [],
      [⟨RowType.Row, ["Bank", "2"]⟩]⟩]⟩

def monthBsMar : MonthFetch := (rangeMar24, some [repBsMar])

def monthBsFeb : MonthFetch := (rangeFeb24, some [repBsFeb])

/-- The two-month balance-sheet input of the C4/C10 witnesses. -/
def monthsBsEx : List MonthFetch := [monthBsMar, monthBsFeb]

/-- A sample token response for the token-store theorems. -/
def tsEx : XeroTokenSet :=
  { access_token := "a", refresh_token := "r", expires_in := 1800,
    id_token := "i", scope := "s", token_type := "t" }

/-! Theorems. -/

set_option maxRecDepth 100000 in
/-- C3: `getMonthsRange`, with the current date fixed at 2024-03-15,
returns the monthly `{start, end}` pairs in descending (most recent first)
order, the first being `{start: "2024-03-02", end: "2024-04-01"}` and the
last `{start: "2000-01-02", end: "2000-02-01"}`. -/
theorem c3_months_range :
    (getMonthsRange ⟨2024, 2, 15⟩).head? =
      some { start := "2024-03-02", endDate := "2024-04-01" }
  ∧ (getMonthsRange ⟨2024, 2, 15⟩).getLast? =
      some { start := "2000-01-02", endDate := "2000-02-01" }
  ∧ pairwiseDescStart (getMonthsRange ⟨2024, 2, 15⟩) = true :=
  ⟨by decide, by decide, by decide⟩

lemma reportScanSafe_row {rep : Report} {r : ReportRow}
    (hsafe : reportScanSafe rep = true) (hr : r ∈ rep.rows) :
    rowThrows r = false := by
  have h := List.all_eq_true.mp hsafe r hr
  simpa using h

lemma reportSignalPnl_row {rep : Report} {r : ReportRow}
    (hsig : reportSignalPnl rep = false) (hr : r ∈ rep.rows) :
    rowSignalPnl r = false := by
  rcases h : rowSignalPnl r with _ | _
  · rfl
  · have hany : rep.rows.any rowSignalPnl = true := List.any_eq_true.mpr ⟨r, hr, h⟩
    rw [reportSignalPnl] at hsig
    rw [hsig] at hany
    exact absurd hany (by simp)

lemma rowSignal_section {r : ReportRow} (h : rowSignalPnl r = true) :
    (r.rowType == RowType.Section && r.title == "") = true :=
  Bool.and_elim_left h

lemma rowSafe_section_scan {r : ReportRow} (hsafe : rowThrows r = false)
    (hS : (r.rowType == RowType.Section && r.title == "") = true) :
    scanThrows r.rows = false := by
  rcases h : scanThrows r.rows with _ | _
  · rfl
  · exact absurd (show rowThrows r = true by simp [rowThrows, hS, h])
      (by simp [hsafe])

lemma section_not_header {r : ReportRow}
    (hS : (r.rowType == RowType.Section && r.title == "") = true) :
    (r.rowType == RowType.Header && r.cells.length > 1) = false := by
  have : r.rowType = RowType.Section := beq_iff_eq.mp (Bool.and_elim_left hS)
  simp [this]

lemma pnlRowStep_no_signal (rep : Report) (s : PnlScan) (r : ReportRow)
    (hsafe : rowThrows r = false) (hsig : rowSignalPnl r = false) :
    pnlRowStep rep s r =
      Except.ok { s with currentMonth := newCurrentMonth s.currentMonth r } := by
  rw [pnlRowStep, newCurrentMonth]
  by_cases hS : (r.rowType == RowType.Section && r.title == "") = true
  · have hH := section_not_header hS
    have hthrows := rowSafe_section_scan hsafe hS
    have hgp : (r.rows.any (signalSubRow "Gross Profit") ||
        r.rows.any (signalSubRow "Net Profit")) = false := by
      rcases h : (r.rows.any (signalSubRow "Gross Profit") ||
          r.rows.any (signalSubRow "Net Profit")) with _ | _
      · rfl
      · exact absurd (show rowSignalPnl r = true by simp [rowSignalPnl, hS, h])
          (by simp [hsig])
    simp [hH, hS, hthrows, hgp]
  · rw [Bool.not_eq_true] at hS
    by_cases hH : (r.rowType == RowType.Header && r.cells.length > 1) = true
    · simp [hH, hS]
    · rw [Bool.not_eq_true] at hH
      simp [hH, hS]

lemma pnlRowStep_safe (rep : Report) (s : PnlScan) (r : ReportRow)
    (hsafe : rowThrows r = false) :
    ∃ s', pnlRowStep rep s r = Except.ok s' ∧
      ((s'.includeMonth = s.includeMonth ∧ s'.zeroCount = s.zeroCount) ∨
        (s'.includeMonth = true ∧ s'.zeroCount = 0)) := by
  by_cases hsig : rowSignalPnl r = true
  · have hS := rowSignal_section hsig
    have hH := section_not_header hS
    have hthrows := rowSafe_section_scan hsafe hS
    have hgp : (r.rows.any (signalSubRow "Gross Profit") ||
        r.rows.any (signalSubRow "Net Profit")) = true := by
      simpa [rowSignalPnl, hS] using hsig
    rw [pnlRowStep]
    simp only [hH, hS, hthrows, hgp, Bool.false_eq_true, if_false, if_true]
    split
    · exact ⟨_, rfl, Or.inr ⟨rfl, rfl⟩⟩
    · exact ⟨_, rfl, Or.inr ⟨rfl, rfl⟩⟩
  · rw [Bool.not_eq_true] at hsig
    exact ⟨_, pnlRowStep_no_signal rep s r hsafe hsig, Or.inl ⟨rfl, rfl⟩⟩

/-- A signal row drives the flags to `includeMonth = true`,
`zeroCount = 0`. -/
lemma pnlRowStep_signal (rep : Report) (s : PnlScan) (r : ReportRow)
    (hsafe : rowThrows r = false) (hsig : rowSignalPnl r = true) :
    ∃ s', pnlRowStep rep s r = Except.ok s' ∧
      s'.includeMonth = true ∧ s'.zeroCount = 0 := by
  have hS := rowSignal_section hsig
  have hH := section_not_header hS
  have hthrows := rowSafe_section_scan hsafe hS
  have hgp : (r.rows.any (signalSubRow "Gross Profit") ||
      r.rows.any (signalSubRow "Net Profit")) = true := by
    simpa [rowSignalPnl, hS] using hsig
  rw [pnlRowStep]
  simp only [hH, hS, hthrows, hgp, Bool.false_eq_true, if_false, if_true]
  split
  · exact ⟨_, rfl, rfl, rfl⟩
  · exact ⟨_, rfl, rfl, rfl⟩

lemma exceptOk_bind {ε α β : Type} (a : α) (g : α → Except ε β) :
    (Except.ok a : Except ε α) >>= g = g a := rfl

lemma pnlFold_no_signal (rep : Report) :
    ∀ (rows : List ReportRow) (s : PnlScan),
      (∀ r ∈ rows, rowThrows r = false) →
      (∀ r ∈ rows, rowSignalPnl r = false) →
      ∃ cm, rows.foldlM (pnlRowStep rep) s =
        Except.ok { s with currentMonth := cm }
  | [], s, _, _ => ⟨s.currentMonth, rfl⟩
  | r :: rows, s, hsafe, hsig => by
    rw [List.foldlM_cons,
      pnlRowStep_no_signal rep s r (hsafe r (by simp)) (hsig r (by simp)),
      exceptOk_bind]
    obtain ⟨cm, hcm⟩ := pnlFold_no_signal rep rows
      { s with currentMonth := newCurrentMonth s.currentMonth r }
      (fun x hx => hsafe x (by simp [hx])) (fun x hx => hsig x (by simp [hx]))
    exact ⟨cm, hcm⟩

lemma pnlFold_safe (rep : Report) :
    ∀ (rows : List ReportRow) (s : PnlScan),
      (∀ r ∈ rows, rowThrows r = false) →
      ∃ s', rows.foldlM (pnlRowStep rep) s = Except.ok s' ∧
        ((s'.includeMonth = s.includeMonth ∧ s'.zeroCount = s.zeroCount) ∨
          (s'.includeMonth = true ∧ s'.zeroCount = 0))
  | [], s, _ => ⟨s, rfl, Or.inl ⟨rfl, rfl⟩⟩
  | r :: rows, s, hsafe => by
    obtain ⟨s1, hs1, hflag1⟩ := pnlRowStep_safe rep s r (hsafe r (by simp))
    rw [List.foldlM_cons, hs1, exceptOk_bind]
    obtain ⟨s', hs', hflag'⟩ := pnlFold_safe rep rows s1
      (fun x hx => hsafe x (by simp [hx]))
    refine ⟨s', hs', ?_⟩
    rcases hflag1 with ⟨h1, h2⟩ | ⟨h1, h2⟩ <;>
      rcases hflag' with ⟨h3, h4⟩ | ⟨h3, h4⟩
    · exact Or.inl ⟨h3.trans h1, h4.trans h2⟩
    · exact Or.inr ⟨h3, h4⟩
    · exact Or.inr ⟨h3.trans h1, h4.trans h2⟩
    · exact Or.inr ⟨h3, h4⟩

lemma pnlFold_signal (rep : Report) :
    ∀ (rows : List ReportRow) (s : PnlScan),
      (∀ r ∈ rows, rowThrows r = false) →
      (∃ r, r ∈ rows ∧ rowSignalPnl r = true) →
      ∃ s', rows.foldlM (pnlRowStep rep) s = Except.ok s' ∧
        s'.includeMonth = true ∧ s'.zeroCount = 0
  | [], _, _, h => absurd h (by simp)
  | r :: rows, s, hsafe, hex => by
    by_cases hr : rowSignalPnl r = true
    · obtain ⟨s1, hs1, hinc, hzero⟩ :=
        pnlRowStep_signal rep s r (hsafe r (by simp)) hr
      rw [List.foldlM_cons, hs1, exceptOk_bind]
      obtain ⟨s', hs', hflag'⟩ := pnlFold_safe rep rows s1
        (fun x hx => hsafe x (by simp [hx]))
      refine ⟨s', hs', ?_⟩
      rcases hflag' with ⟨h3, h4⟩ | ⟨h3, h4⟩
      · exact ⟨h3.trans hinc, h4.trans hzero⟩
      · exact ⟨h3, h4⟩
    · rw [Bool.not_eq_true] at hr
      rw [List.foldlM_cons,
        pnlRowStep_no_signal rep s r (hsafe r (by simp)) hr, exceptOk_bind]
      obtain ⟨rx, hrx, hsigx⟩ := hex
      rcases List.mem_cons.mp hrx with rfl | hmem
      · exact absurd hsigx (by simp [hr])
      · exact pnlFold_signal rep rows _
          (fun x hx => hsafe x (by simp [hx])) ⟨rx, hmem, hsigx⟩

lemma pnlScanReports_no_signal :
    ∀ (reports : List Report) (s : PnlScan),
      (∀ rep ∈ reports, reportScanSafe rep = true) →
      (∀ rep ∈ reports, reportSignalPnl rep = false) →
      ∃ cm, pnlScanReports reports s = Except.ok { s with currentMonth := cm }
  | [], s, _, _ => ⟨s.currentMonth, rfl⟩
  | rep :: reports, s, hsafe, hsig => by
    obtain ⟨cm1, hcm1⟩ := pnlFold_no_signal rep rep.rows
      { s with currentMonth := "" }
      (fun r hr => reportScanSafe_row (hsafe rep (by simp)) hr)
      (fun r hr => reportSignalPnl_row (hsig rep (by simp)) hr)
    rw [pnlScanReports, List.foldlM_cons]
    rw [show pnlScanReport s rep = Except.ok { s with currentMonth := cm1 }
      from hcm1, exceptOk_bind]
    exact pnlScanReports_no_signal reports _
      (fun x hx => hsafe x (by simp [hx])) (fun x hx => hsig x (by simp [hx]))

lemma pnlScanReports_safe :
    ∀ (reports : List Report) (s : PnlScan),
      (∀ rep ∈ reports, reportScanSafe rep = true) →
      ∃ s', pnlScanReports reports s = Except.ok s' ∧
        ((s'.includeMonth = s.includeMonth ∧ s'.zeroCount = s.zeroCount) ∨
          (s'.includeMonth = true ∧ s'.zeroCount = 0))
  | [], s, _ => ⟨s, rfl, Or.inl ⟨rfl, rfl⟩⟩
  | rep :: reports, s, hsafe => by
    obtain ⟨s1, hs1, hflag1⟩ := pnlFold_safe rep rep.rows
      { s with currentMonth := "" }
      (fun r hr => reportScanSafe_row (hsafe rep (by simp)) hr)
    rw [pnlScanReports, List.foldlM_cons]
    rw [show pnlScanReport s rep = Except.ok s1 from hs1, exceptOk_bind]
    obtain ⟨s', hs', hflag'⟩ := pnlScanReports_safe reports s1
      (fun x hx => hsafe x (by simp [hx]))
    refine ⟨s', hs', ?_⟩
    rcases hflag1 with ⟨h1, h2⟩ | ⟨h1, h2⟩ <;>
      rcases hflag' with ⟨h3, h4⟩ | ⟨h3, h4⟩
    · exact Or.inl ⟨h3.trans h1, h4.trans h2⟩
    · exact Or.inr ⟨h3, h4⟩
    · exact Or.inr ⟨h3.trans h1, h4.trans h2⟩
    · exact Or.inr ⟨h3, h4⟩

lemma pnlScanReports_signal :
    ∀ (reports : List Report) (s : PnlScan),
      (∀ rep ∈ reports, reportScanSafe rep = true) →
      (∃ rep, rep ∈ reports ∧ reportSignalPnl rep = true) →
      ∃ s', pnlScanReports reports s = Except.ok s' ∧
        s'.includeMonth = true ∧ s'.zeroCount = 0
  | [], _, _, h => absurd h (by simp)
  | rep :: reports, s, hsafe, hex => by
    by_cases hr : reportSignalPnl rep = true
    · obtain ⟨rx, hrx, hsigx⟩ := List.any_eq_true.mp hr
      obtain ⟨s1, hs1, hinc, hzero⟩ := pnlFold_signal rep rep.rows
        { s with currentMonth := "" }
        (fun r hr' => reportScanSafe_row (hsafe rep (by simp)) hr')
        ⟨rx, hrx, hsigx⟩
      rw [pnlScanReports, List.foldlM_cons]
      rw [show pnlScanReport s rep = Except.ok s1 from hs1, exceptOk_bind]
      obtain ⟨s', hs', hflag'⟩ := pnlScanReports_safe reports s1
        (fun x hx => hsafe x (by simp [hx]))
      refine ⟨s', hs', ?_⟩
      rcases hflag' with ⟨h3, h4⟩ | ⟨h3, h4⟩
      · exact ⟨h3.trans hinc, h4.trans hzero⟩
      · exact ⟨h3, h4⟩
    · rw [Bool.not_eq_true] at hr
      obtain ⟨cm1, hcm1⟩ := pnlFold_no_signal rep rep.rows
        { s with currentMonth := "" }
        (fun r hr' => reportScanSafe_row (hsafe rep (by simp)) hr')
        (fun r hr' => reportSignalPnl_row hr hr')
      rw [pnlScanReports, List.foldlM_cons]
      rw [show pnlScanReport s rep = Except.ok { s with currentMonth := cm1 }
        from hcm1, exceptOk_bind]
      obtain ⟨rx, hrx, hsigx⟩ := hex
      rcases List.mem_cons.mp hrx with rfl | hmem
      · exact absurd hsigx (by simp [hr])
      · exact pnlScanReports_signal reports _
          (fun x hx => hsafe x (by simp [hx])) ⟨rx, hmem, hsigx⟩

/-- A zero month increments the counter, appends only the two blank rows,
touches nothing else, and trips the stop flag exactly at ten. -/
lemma pnlProcessMonth_zero (st : PnlState) (m : MonthFetch)
    (hz : pnlZeroMonth m = true) :
    pnlProcessMonth st m =
      { formattedRows := st.formattedRows ++ [[], []],
        processedMonths := st.processedMonths,
        zeroCount := st.zeroCount + 1,
        stop := st.stop || (st.zeroCount + 1 == 10),
        fetchedCount := st.fetchedCount + 1 } := by
  rcases m with ⟨d, mres⟩
  rcases mres with _ | reports
  · exact absurd hz (by simp [pnlZeroMonth])
  · rw [pnlZeroMonth] at hz
    have hsafe0 := Bool.and_elim_right (Bool.and_elim_left hz)
    have hnosig := Bool.and_elim_right hz
    have hsafe : ∀ rep ∈ reports, reportScanSafe rep = true := by
      intro rep hrep
      refine List.all_eq_true.mp ?_ rep hrep
      simpa [monthScanSafe] using hsafe0
    have hsig : ∀ rep ∈ reports, reportSignalPnl rep = false := by
      have hno : reports.any reportSignalPnl = false := by
        simpa [monthSignalPnl] using hnosig
      intro rep hrep
      rcases h : reportSignalPnl rep with _ | _
      · rfl
      · have hany : reports.any reportSignalPnl = true :=
          List.any_eq_true.mpr ⟨rep, hrep, h⟩
        rw [hno] at hany
        exact absurd hany (by simp)
    obtain ⟨cm, hcm⟩ := pnlScanReports_no_signal reports
      { currentMonth := "", includeMonth := false, zeroCount := st.zeroCount,
        processed := st.processedMonths, rows := st.formattedRows }
      hsafe hsig
    simp only [pnlProcessMonth]
    rw [hcm]
    rfl

/-- A signal month resets the zero counter and leaves the stop flag as it
was. -/
lemma pnlProcessMonth_signal (st : PnlState) (m : MonthFetch)
    (hz : pnlSignalMonth m = true) :
    (pnlProcessMonth st m).zeroCount = 0 ∧
      (pnlProcessMonth st m).stop = st.stop ∧
      (pnlProcessMonth st m).fetchedCount = st.fetchedCount + 1 := by
  rcases m with ⟨d, mres⟩
  rcases mres with _ | reports
  · exact absurd hz (by simp [pnlSignalMonth])
  · rw [pnlSignalMonth] at hz
    have hsafe0 := Bool.and_elim_right (Bool.and_elim_left hz)
    have hsigm := Bool.and_elim_right hz
    have hsafe : ∀ rep ∈ reports, reportScanSafe rep = true := by
      intro rep hrep
      refine List.all_eq_true.mp ?_ rep hrep
      simpa [monthScanSafe] using hsafe0
    have hsig : ∃ rep, rep ∈ reports ∧ reportSignalPnl rep = true := by
      refine List.any_eq_true.mp ?_
      simpa [monthSignalPnl] using hsigm
    obtain ⟨s', hs', hinc, hzero⟩ := pnlScanReports_signal reports
      { currentMonth := "", includeMonth := false, zeroCount := st.zeroCount,
        processed := st.processedMonths, rows := st.formattedRows }
      hsafe hsig
    simp only [pnlProcessMonth]
    rw [hs']
    simp [hinc, hzero]

lemma pnlProcessMonth_fetched (st : PnlState) (m : MonthFetch) :
    (pnlProcessMonth st m).fetchedCount = st.fetchedCount + 1 := by
  rcases m with ⟨d, mres⟩
  rcases mres with _ | reports
  · rfl
  · simp only [pnlProcessMonth]
    rcases hscan : pnlScanReports reports
      { currentMonth := "", includeMonth := false, zeroCount := st.zeroCount,
        processed := st.processedMonths, rows := st.formattedRows } with s | s
    · rfl
    · rfl

lemma pnlLoop_stopped (st : PnlState) (l : List MonthFetch)
    (h : st.stop = true) : pnlLoop st l = st := by
  cases l with
  | nil => rfl
  | cons m ms => simp only [pnlLoop, h, if_true]

lemma pnlLoop_append (a : List MonthFetch) :
    ∀ (st : PnlState) (b : List MonthFetch),
      pnlLoop st (a ++ b) = pnlLoop (pnlLoop st a) b := by
  induction a with
  | nil => intro st b; rfl
  | cons m ms ih =>
    intro st b
    by_cases h : st.stop = true
    · rw [pnlLoop_stopped st (m :: ms ++ b) h, pnlLoop_stopped st (m :: ms) h,
        pnlLoop_stopped st b h]
    · rw [Bool.not_eq_true] at h
      show pnlLoop st (m :: (ms ++ b)) = pnlLoop (pnlLoop st (m :: ms)) b
      simp only [pnlLoop, h, Bool.false_eq_true, if_false]
      exact ih (pnlProcessMonth st m) b

lemma pnlLoop_fetched_of_not_stop (l : List MonthFetch) :
    ∀ st : PnlState, (pnlLoop st l).stop = false →
      (pnlLoop st l).fetchedCount = st.fetchedCount + l.length := by
  induction l with
  | nil => intro st _; simp [pnlLoop]
  | cons m ms ih =>
    intro st h
    by_cases hs : st.stop = true
    · rw [pnlLoop_stopped st (m :: ms) hs] at h
      rw [h] at hs
      exact absurd hs (by simp)
    · rw [Bool.not_eq_true] at hs
      have hexp : pnlLoop st (m :: ms) = pnlLoop (pnlProcessMonth st m) ms := by
        simp only [pnlLoop, hs, Bool.false_eq_true, if_false]
      rw [hexp] at h ⊢
      rw [ih _ h, pnlProcessMonth_fetched]
      simp only [List.length_cons]
      omega

lemma pnlLoop_zeros (zs : List MonthFetch) :
    ∀ (st : PnlState) (z : MonthFetch),
      (∀ m ∈ z :: zs, pnlZeroMonth m = true) → st.stop = false →
      st.zeroCount + (z :: zs).length = 10 →
      (pnlLoop st (z :: zs)).fetchedCount =
          st.fetchedCount + (z :: zs).length ∧
        (pnlLoop st (z :: zs)).stop = true := by
  induction zs with
  | nil =>
    intro st z hz hstop hcount
    have hzc : st.zeroCount = 9 := by simpa using hcount
    have hexp : pnlLoop st [z] = pnlProcessMonth st z := by
      simp only [pnlLoop, hstop, Bool.false_eq_true, if_false]
    rw [hexp, pnlProcessMonth_zero st z (hz z (by simp)), hzc]
    exact ⟨rfl, by simp [hstop]⟩
  | cons z2 rest ih =>
    intro st z hz hstop hcount
    have hexp : pnlLoop st (z :: z2 :: rest) =
        pnlLoop (pnlProcessMonth st z) (z2 :: rest) := by
      simp only [pnlLoop, hstop, Bool.false_eq_true, if_false]
    rw [hexp, pnlProcessMonth_zero st z (hz z (by simp))]
    have hne : (st.zeroCount + 1 == 10) = false := by
      have : st.zeroCount + 1 ≠ 10 := by
        simp only [List.length_cons] at hcount
        omega
      exact beq_eq_false_iff_ne.mpr this
    have hstop2 : (st.stop || (st.zeroCount + 1 == 10)) = false := by
      rw [hstop, hne]
      rfl
    have := ih
      { formattedRows := st.formattedRows ++ [[], []],
        processedMonths := st.processedMonths,
        zeroCount := st.zeroCount + 1,
        stop := st.stop || (st.zeroCount + 1 == 10),
        fetchedCount := st.fetchedCount + 1 }
      z2 (fun m hm => hz m (by simp at hm ⊢; tauto)) hstop2
      (by simp only [List.length_cons] at hcount ⊢; omega)
    refine ⟨?_, this.2⟩
    rw [this.1]
    simp only [List.length_cons]
    omega

lemma pnlEmitRowStep_proj (rep : Report) (s : PnlScan) (r : ReportRow) :
    pnlEmitRowStep rep (pnlProj s) r = pnlProjE (pnlRowStep rep s r) := by
  rw [pnlEmitRowStep, pnlRowStep]
  by_cases hH : (r.rowType == RowType.Header && r.cells.length > 1) = true
  · simp only [hH, if_true, pnlProj]
    by_cases hS : (r.rowType == RowType.Section && r.title == "") = true
    · by_cases hT : scanThrows r.rows = true
      · simp only [hS, hT, if_true, pnlProjE, pnlProj]
      · simp only [hS, hT, Bool.false_eq_true, if_true, if_false]
        by_cases hsig : (r.rows.any (signalSubRow "Gross Profit") ||
            r.rows.any (signalSubRow "Net Profit")) = true
        · simp only [hsig, if_true]
          by_cases hcm : (r.cells.getD 1 "" != "" &&
              !s.processed.contains (r.cells.getD 1 "")) = true
          · simp only [hcm, if_true, pnlProjE, pnlProj]
          · simp only [hcm, Bool.false_eq_true, if_false, pnlProjE, pnlProj]
        · simp only [hsig, Bool.false_eq_true, if_false, pnlProjE, pnlProj]
    · simp only [hS, Bool.false_eq_true, if_false, pnlProjE, pnlProj]
  · simp only [hH, Bool.false_eq_true, if_false, pnlProj]
    by_cases hS : (r.rowType == RowType.Section && r.title == "") = true
    · by_cases hT : scanThrows r.rows = true
      · simp only [hS, hT, if_true, pnlProjE, pnlProj]
      · simp only [hS, hT, Bool.false_eq_true, if_true, if_false]
        by_cases hsig : (r.rows.any (signalSubRow "Gross Profit") ||
            r.rows.any (signalSubRow "Net Profit")) = true
        · simp only [hsig, if_true]
          by_cases hcm : (s.currentMonth != "" &&
              !s.processed.contains s.currentMonth) = true
          · simp only [hcm, if_true, pnlProjE, pnlProj]
          · simp only [hcm, Bool.false_eq_true, if_false, pnlProjE, pnlProj]
        · simp only [hsig, Bool.false_eq_true, if_false, pnlProjE, pnlProj]
    · simp only [hS, Bool.false_eq_true, if_false, pnlProjE, pnlProj]

lemma pnlEmitFold_proj (rep : Report) :
    ∀ (rows : List ReportRow) (s : PnlScan),
      rows.foldlM (pnlEmitRowStep rep) (pnlProj s) =
        pnlProjE (rows.foldlM (pnlRowStep rep) s)
  | [], s => rfl
  | r :: rows, s => by
    rw [List.foldlM_cons, List.foldlM_cons, pnlEmitRowStep_proj]
    rcases h : pnlRowStep rep s r with s1 | s1
    · rfl
    · show (Except.ok (pnlProj s1) >>= fun b => rows.foldlM (pnlEmitRowStep rep) b) = _
      rw [exceptOk_bind, exceptOk_bind]
      exact pnlEmitFold_proj rep rows s1

lemma pnlEmitReports_proj :
    ∀ (reports : List Report) (s : PnlScan),
      reports.foldlM pnlEmitReport (pnlProj s) =
        pnlProjE (pnlScanReports reports s)
  | [], s => rfl
  | rep :: reports, s => by
    rw [pnlScanReports, List.foldlM_cons, List.foldlM_cons]
    have hrep : pnlEmitReport (pnlProj s) rep = pnlProjE (pnlScanReport s rep) := by
      rw [pnlEmitReport, pnlScanReport]
      exact pnlEmitFold_proj rep rep.rows { s with currentMonth := "" }
    rw [hrep]
    rcases h : pnlScanReport s rep with s1 | s1
    · rfl
    · show (Except.ok (pnlProj s1) >>= fun b => reports.foldlM pnlEmitReport b) = _
      rw [exceptOk_bind, exceptOk_bind]
      rw [show reports.foldlM pnlScanReport s1 = pnlScanReports reports s1 from rfl]
      exact pnlEmitReports_proj reports s1

lemma pnlExpectedRows_loop (months : List MonthFetch) :
    ∀ st : PnlState, (pnlLoop st months).stop = false →
      (pnlLoop st months).formattedRows =
        pnlExpectedRows st.processedMonths st.formattedRows months := by
  induction months with
  | nil => intro st _; rfl
  | cons m ms ih =>
    intro st h
    by_cases hs : st.stop = true
    · rw [pnlLoop_stopped st (m :: ms) hs] at h
      rw [h] at hs
      exact absurd hs (by simp)
    · rw [Bool.not_eq_true] at hs
      have hexp : pnlLoop st (m :: ms) = pnlLoop (pnlProcessMonth st m) ms := by
        simp only [pnlLoop, hs, Bool.false_eq_true, if_false]
      rw [hexp] at h ⊢
      rw [ih _ h]
      rcases m with ⟨d, mres⟩
      rcases mres with _ | reports
      · rfl
      · have hproj := pnlEmitReports_proj reports
          { currentMonth := "", includeMonth := false, zeroCount := st.zeroCount,
            processed := st.processedMonths, rows := st.formattedRows }
        show pnlExpectedRows (pnlProcessMonth st (d, some reports)).processedMonths
            (pnlProcessMonth st (d, some reports)).formattedRows ms =
          pnlExpectedRows st.processedMonths st.formattedRows
            ((d, some reports) :: ms)
        simp only [pnlProcessMonth, pnlExpectedRows]
        have hrec : (⟨"", st.processedMonths, st.formattedRows⟩ : PnlEmit) =
            pnlProj ⟨"", false, st.zeroCount, st.processedMonths,
              st.formattedRows⟩ := rfl
        rw [hrec, hproj]
        rcases hscan : pnlScanReports reports
          { currentMonth := "", includeMonth := false, zeroCount := st.zeroCount,
            processed := st.processedMonths, rows := st.formattedRows } with s1 | s1
        · rfl
        · rfl

/-- C5 (amended): whenever the P&L loop is not cut short by the
ten-zero-month stop, its output rows are exactly: for each successfully
fetched month in order, the month's flattened blocks (the `[month, title]`
and `[month, ...cells]` rows, present only for included months with a new
month label) followed by exactly two blank separator rows — so separators
follow every fetched month, included or not, and errored months contribute
nothing. -/
theorem c5_blank_rows_amended (months : List MonthFetch)
    (h : (pnlRun months).stop = false) :
    (pnlRun months).formattedRows = pnlExpectedRows [] [] months :=
  pnlExpectedRows_loop months pnlInit h

/-- C5 witness: the amended theorem evaluated on a signal month followed by
a zero month. -/
theorem c5_blank_rows_amended_witness :
    (pnlRun [monthSignalPnlEx, monthZeroPnl]).formattedRows =
      pnlExpectedRows [] [] [monthSignalPnlEx, monthZeroPnl] :=
  c5_blank_rows_amended [monthSignalPnlEx, monthZeroPnl] (by decide)

lemma reportSignalBs_row {rep : Report} {r : ReportRow}
    (hsig : reportSignalBs rep = false) (hr : r ∈ rep.rows) :
    rowSignalBs r = false := by
  rcases h : rowSignalBs r with _ | _
  · rfl
  · have hany : rep.rows.any rowSignalBs = true := List.any_eq_true.mpr ⟨r, hr, h⟩
    rw [reportSignalBs] at hsig
    rw [hsig] at hany
    exact absurd hany (by simp)

lemma rowSignalBs_section {r : ReportRow} (h : rowSignalBs r = true) :
    (r.rowType == RowType.Section && r.title == "") = true :=
  Bool.and_elim_left h

lemma bsRowStep_no_signal (rep : Report) (startS label : String) (s : BsScan)
    (r : ReportRow) (hsafe : rowThrows r = false)
    (hsig : rowSignalBs r = false) :
    bsRowStep rep startS label s r =
      Except.ok { s with currentMonth := newCurrentMonth s.currentMonth r } := by
  rw [bsRowStep, newCurrentMonth]
  by_cases hS : (r.rowType == RowType.Section && r.title == "") = true
  · have hH := section_not_header hS
    have hthrows := rowSafe_section_scan hsafe hS
    have hna : r.rows.any (signalSubRow "Net Assets") = false := by
      rcases h : r.rows.any (signalSubRow "Net Assets") with _ | _
      · rfl
      · exact absurd (show rowSignalBs r = true by simp [rowSignalBs, hS, h])
          (by simp [hsig])
    simp [hH, hS, hthrows, hna]
  · rw [Bool.not_eq_true] at hS
    by_cases hH : (r.rowType == RowType.Header && r.cells.length > 1) = true
    · simp [hH, hS]
    · rw [Bool.not_eq_true] at hH
      simp [hH, hS]

lemma bsRowStep_safe (rep : Report) (startS label : String) (s : BsScan)
    (r : ReportRow) (hsafe : rowThrows r = false) :
    ∃ s', bsRowStep rep startS label s r = Except.ok s' ∧
      ((s'.includeMonth = s.includeMonth ∧ s'.zeroCount = s.zeroCount) ∨
        (s'.includeMonth = true ∧ s'.zeroCount = 0)) := by
  by_cases hsig : rowSignalBs r = true
  · have hS := rowSignalBs_section hsig
    have hH := section_not_header hS
    have hthrows := rowSafe_section_scan hsafe hS
    have hna : r.rows.any (signalSubRow "Net Assets") = true := by
      simpa [rowSignalBs, hS] using hsig
    rw [bsRowStep]
    simp only [hH, hS, hthrows, hna, Bool.false_eq_true, if_false, if_true]
    split
    · exact ⟨_, rfl, Or.inr ⟨rfl, rfl⟩⟩
    · exact ⟨_, rfl, Or.inr ⟨rfl, rfl⟩⟩
  · rw [Bool.not_eq_true] at hsig
    exact ⟨_, bsRowStep_no_signal rep startS label s r hsafe hsig,
      Or.inl ⟨rfl, rfl⟩⟩

lemma bsRowStep_signal (rep : Report) (startS label : String) (s : BsScan)
    (r : ReportRow) (hsafe : rowThrows r = false)
    (hsig : rowSignalBs r = true) :
    ∃ s', bsRowStep rep startS label s r = Except.ok s' ∧
      s'.includeMonth = true ∧ s'.zeroCount = 0 := by
  have hS := rowSignalBs_section hsig
  have hH := section_not_header hS
  have hthrows := rowSafe_section_scan hsafe hS
  have hna : r.rows.any (signalSubRow "Net Assets") = true := by
    simpa [rowSignalBs, hS] using hsig
  rw [bsRowStep]
  simp only [hH, hS, hthrows, hna, Bool.false_eq_true, if_false, if_true]
  split
  · exact ⟨_, rfl, rfl, rfl⟩
  · exact ⟨_, rfl, rfl, rfl⟩

lemma bsFold_no_signal (rep : Report) (startS label : String) :
    ∀ (rows : List ReportRow) (s : BsScan),
      (∀ r ∈ rows, rowThrows r = false) →
      (∀ r ∈ rows, rowSignalBs r = false) →
      ∃ cm, rows.foldlM (bsRowStep rep startS label) s =
        Except.ok { s with currentMonth := cm }
  | [], s, _, _ => ⟨s.currentMonth, rfl⟩
  | r :: rows, s, hsafe, hsig => by
    rw [List.foldlM_cons,
      bsRowStep_no_signal rep startS label s r (hsafe r (by simp))
        (hsig r (by simp)),
      exceptOk_bind]
    obtain ⟨cm, hcm⟩ := bsFold_no_signal rep startS label rows
      { s with currentMonth := newCurrentMonth s.currentMonth r }
      (fun x hx => hsafe x (by simp [hx])) (fun x hx => hsig x (by simp [hx]))
    exact ⟨cm, hcm⟩

lemma bsFold_safe (rep : Report) (startS label : String) :
    ∀ (rows : List ReportRow) (s : BsScan),
      (∀ r ∈ rows, rowThrows r = false) →
      ∃ s', rows.foldlM (bsRowStep rep startS label) s = Except.ok s' ∧
        ((s'.includeMonth = s.includeMonth ∧ s'.zeroCount = s.zeroCount) ∨
          (s'.includeMonth = true ∧ s'.zeroCount = 0))
  | [], s, _ => ⟨s, rfl, Or.inl ⟨rfl, rfl⟩⟩
  | r :: rows, s, hsafe => by
    obtain ⟨s1, hs1, hflag1⟩ :=
      bsRowStep_safe rep startS label s r (hsafe r (by simp))
    rw [List.foldlM_cons, hs1, exceptOk_bind]
    obtain ⟨s', hs', hflag'⟩ := bsFold_safe rep startS label rows s1
      (fun x hx => hsafe x (by simp [hx]))
    refine ⟨s', hs', ?_⟩
    rcases hflag1 with ⟨h1, h2⟩ | ⟨h1, h2⟩ <;>
      rcases hflag' with ⟨h3, h4⟩ | ⟨h3, h4⟩
    · exact Or.inl ⟨h3.trans h1, h4.trans h2⟩
    · exact Or.inr ⟨h3, h4⟩
    · exact Or.inr ⟨h3.trans h1, h4.trans h2⟩
    · exact Or.inr ⟨h3, h4⟩

lemma bsFold_signal (rep : Report) (startS label : String) :
    ∀ (rows : List ReportRow) (s : BsScan),
      (∀ r ∈ rows, rowThrows r = false) →
      (∃ r, r ∈ rows ∧ rowSignalBs r = true) →
      ∃ s', rows.foldlM (bsRowStep rep startS label) s = Except.ok s' ∧
        s'.includeMonth = true ∧ s'.zeroCount = 0
  | [], _, _, h => absurd h (by simp)
  | r :: rows, s, hsafe, hex => by
    by_cases hr : rowSignalBs r = true
    · obtain ⟨s1, hs1, hinc, hzero⟩ :=
        bsRowStep_signal rep startS label s r (hsafe r (by simp)) hr
      rw [List.foldlM_cons, hs1, exceptOk_bind]
      obtain ⟨s', hs', hflag'⟩ := bsFold_safe rep startS label rows s1
        (fun x hx => hsafe x (by simp [hx]))
      refine ⟨s', hs', ?_⟩
      rcases hflag' with ⟨h3, h4⟩ | ⟨h3, h4⟩
      · exact ⟨h3.trans hinc, h4.trans hzero⟩
      · exact ⟨h3, h4⟩
    · rw [Bool.not_eq_true] at hr
      rw [List.foldlM_cons,
        bsRowStep_no_signal rep startS label s r (hsafe r (by simp)) hr,
        exceptOk_bind]
      obtain ⟨rx, hrx, hsigx⟩ := hex
      rcases List.mem_cons.mp hrx with rfl | hmem
      · exact absurd hsigx (by simp [hr])
      · exact bsFold_signal rep startS label rows _
          (fun x hx => hsafe x (by simp [hx])) ⟨rx, hmem, hsigx⟩

lemma bsScanReports_no_signal (startS label : String) :
    ∀ (reports : List Report) (s : BsScan),
      (∀ rep ∈ reports, reportScanSafe rep = true) →
      (∀ rep ∈ reports, reportSignalBs rep = false) →
      ∃ cm, bsScanReports startS label reports s =
        Except.ok { s with currentMonth := cm }
  | [], s, _, _ => ⟨s.currentMonth, rfl⟩
  | rep :: reports, s, hsafe, hsig => by
    obtain ⟨cm1, hcm1⟩ := bsFold_no_signal rep startS label rep.rows
      { s with currentMonth := "" }
      (fun r hr => reportScanSafe_row (hsafe rep (by simp)) hr)
      (fun r hr => reportSignalBs_row (hsig rep (by simp)) hr)
    rw [bsScanReports, List.foldlM_cons]
    rw [show bsScanReport startS label s rep =
        Except.ok { s with currentMonth := cm1 } from hcm1, exceptOk_bind]
    exact bsScanReports_no_signal startS label reports _
      (fun x hx => hsafe x (by simp [hx])) (fun x hx => hsig x (by simp [hx]))

lemma bsScanReports_safe (startS label : String) :
    ∀ (reports : List Report) (s : BsScan),
      (∀ rep ∈ reports, reportScanSafe rep = true) →
      ∃ s', bsScanReports startS label reports s = Except.ok s' ∧
        ((s'.includeMonth = s.includeMonth ∧ s'.zeroCount = s.zeroCount) ∨
          (s'.includeMonth = true ∧ s'.zeroCount = 0))
  | [], s, _ => ⟨s, rfl, Or.inl ⟨rfl, rfl⟩⟩
  | rep :: reports, s, hsafe => by
    obtain ⟨s1, hs1, hflag1⟩ := bsFold_safe rep startS label rep.rows
      { s with currentMonth := "" }
      (fun r hr => reportScanSafe_row (hsafe rep (by simp)) hr)
    rw [bsScanReports, List.foldlM_cons]
    rw [show bsScanReport startS label s rep = Except.ok s1 from hs1,
      exceptOk_bind]
    obtain ⟨s', hs', hflag'⟩ := bsScanReports_safe startS label reports s1
      (fun x hx => hsafe x (by simp [hx]))
    refine ⟨s', hs', ?_⟩
    rcases hflag1 with ⟨h1, h2⟩ | ⟨h1, h2⟩ <;>
      rcases hflag' with ⟨h3, h4⟩ | ⟨h3, h4⟩
    · exact Or.inl ⟨h3.trans h1, h4.trans h2⟩
    · exact Or.inr ⟨h3, h4⟩
    · exact Or.inr ⟨h3.trans h1, h4.trans h2⟩
    · exact Or.inr ⟨h3, h4⟩

lemma bsScanReports_signal (startS label : String) :
    ∀ (reports : List Report) (s : BsScan),
      (∀ rep ∈ reports, reportScanSafe rep = true) →
      (∃ rep, rep ∈ reports ∧ reportSignalBs rep = true) →
      ∃ s', bsScanReports startS label reports s = Except.ok s' ∧
        s'.includeMonth = true ∧ s'.zeroCount = 0
  | [], _, _, h => absurd h (by simp)
  | rep :: reports, s, hsafe, hex => by
    by_cases hr : reportSignalBs rep = true
    · obtain ⟨rx, hrx, hsigx⟩ := List.any_eq_true.mp hr
      obtain ⟨s1, hs1, hinc, hzero⟩ := bsFold_signal rep startS label rep.rows
        { s with currentMonth := "" }
        (fun r hr' => reportScanSafe_row (hsafe rep (by simp)) hr')
        ⟨rx, hrx, hsigx⟩
      rw [bsScanReports, List.foldlM_cons]
      rw [show bsScanReport startS label s rep = Except.ok s1 from hs1,
        exceptOk_bind]
      obtain ⟨s', hs', hflag'⟩ := bsScanReports_safe startS label reports s1
        (fun x hx => hsafe x (by simp [hx]))
      refine ⟨s', hs', ?_⟩
      rcases hflag' with ⟨h3, h4⟩ | ⟨h3, h4⟩
      · exact ⟨h3.trans hinc, h4.trans hzero⟩
      · exact ⟨h3, h4⟩
    · rw [Bool.not_eq_true] at hr
      obtain ⟨cm1, hcm1⟩ := bsFold_no_signal rep startS label rep.rows
        { s with currentMonth := "" }
        (fun r hr' => reportScanSafe_row (hsafe rep (by simp)) hr')
        (fun r hr' => reportSignalBs_row hr hr')
      rw [bsScanReports, List.foldlM_cons]
      rw [show bsScanReport startS label s rep =
          Except.ok { s with currentMonth := cm1 } from hcm1, exceptOk_bind]
      obtain ⟨rx, hrx, hsigx⟩ := hex
      rcases List.mem_cons.mp hrx with rfl | hmem
      · exact absurd hsigx (by simp [hr])
      · exact bsScanReports_signal startS label reports _
          (fun x hx => hsafe x (by simp [hx])) ⟨rx, hmem, hsigx⟩

/-- A zero "Net Assets" month increments the counter, touches nothing else,
and trips the stop flag exactly at ten. -/
lemma bsProcessMonth_zero (st : BsState) (m : MonthFetch)
    (hz : bsZeroMonth m = true) :
    bsProcessMonth st m =
      { processedMonths := st.processedMonths,
        zeroCount := st.zeroCount + 1,
        stop := st.stop || (st.zeroCount + 1 == 10),
        uniqueKeys := st.uniqueKeys,
        dataMap := st.dataMap,
        fetchedCount := st.fetchedCount + 1,
        flattened := st.flattened } := by
  rcases m with ⟨d, mres⟩
  rcases mres with _ | reports
  · exact absurd hz (by simp [bsZeroMonth])
  · rw [bsZeroMonth] at hz
    have hsafe0 := Bool.and_elim_right (Bool.and_elim_left hz)
    have hnosig := Bool.and_elim_right hz
    have hsafe : ∀ rep ∈ reports, reportScanSafe rep = true := by
      intro rep hrep
      refine List.all_eq_true.mp ?_ rep hrep
      simpa [monthScanSafe] using hsafe0
    have hsig : ∀ rep ∈ reports, reportSignalBs rep = false := by
      have hno : reports.any reportSignalBs = false := by
        simpa [monthSignalBs] using hnosig
      intro rep hrep
      rcases h : reportSignalBs rep with _ | _
      · rfl
      · have hany : reports.any reportSignalBs = true :=
          List.any_eq_true.mpr ⟨rep, hrep, h⟩
        rw [hno] at hany
        exact absurd hany (by simp)
    obtain ⟨cm, hcm⟩ := bsScanReports_no_signal
      (d, some reports).1.start (bsMonthLabel (d, some reports).1) reports
      { currentMonth := "", includeMonth := false, zeroCount := st.zeroCount,
        processed := st.processedMonths, uniqueKeys := st.uniqueKeys,
        dataMap := st.dataMap, flattened := st.flattened }
      hsafe hsig
    simp only [bsProcessMonth]
    rw [hcm]
    rfl

/-- A "Net Assets" signal month resets the zero counter and leaves the stop
flag as it was. -/
lemma bsProcessMonth_signal (st : BsState) (m : MonthFetch)
    (hz : bsSignalMonth m = true) :
    (bsProcessMonth st m).zeroCount = 0 ∧
      (bsProcessMonth st m).stop = st.stop ∧
      (bsProcessMonth st m).fetchedCount = st.fetchedCount + 1 := by
  rcases m with ⟨d, mres⟩
  rcases mres with _ | reports
  · exact absurd hz (by simp [bsSignalMonth])
  · rw [bsSignalMonth] at hz
    have hsafe0 := Bool.and_elim_right (Bool.and_elim_left hz)
    have hsigm := Bool.and_elim_right hz
    have hsafe : ∀ rep ∈ reports, reportScanSafe rep = true := by
      intro rep hrep
      refine List.all_eq_true.mp ?_ rep hrep
      simpa [monthScanSafe] using hsafe0
    have hsig : ∃ rep, rep ∈ reports ∧ reportSignalBs rep = true := by
      refine List.any_eq_true.mp ?_
      simpa [monthSignalBs] using hsigm
    obtain ⟨s', hs', hinc, hzero⟩ := bsScanReports_signal
      (d, some reports).1.start (bsMonthLabel (d, some reports).1) reports
      { currentMonth := "", includeMonth := false, zeroCount := st.zeroCount,
        processed := st.processedMonths, uniqueKeys := st.uniqueKeys,
        dataMap := st.dataMap, flattened := st.flattened }
      hsafe hsig
    simp only [bsProcessMonth]
    rw [hs']
    simp [hinc, hzero]

lemma bsProcessMonth_fetched (st : BsState) (m : MonthFetch) :
    (bsProcessMonth st m).fetchedCount = st.fetchedCount + 1 := by
  rcases m with ⟨d, mres⟩
  rcases mres with _ | reports
  · rfl
  · simp only [bsProcessMonth]
    rcases hscan : bsScanReports (d, some reports).1.start
      (bsMonthLabel (d, some reports).1) reports
      { currentMonth := "", includeMonth := false, zeroCount := st.zeroCount,
        processed := st.processedMonths, uniqueKeys := st.uniqueKeys,
        dataMap := st.dataMap, flattened := st.flattened } with s | s
    · rfl
    · rfl

lemma bsLoop_stopped (st : BsState) (l : List MonthFetch)
    (h : st.stop = true) : bsLoop st l = st := by
  cases l with
  | nil => rfl
  | cons m ms => simp only [bsLoop, h, if_true]

lemma bsLoop_append (a : List MonthFetch) :
    ∀ (st : BsState) (b : List MonthFetch),
      bsLoop st (a ++ b) = bsLoop (bsLoop st a) b := by
  induction a with
  | nil => intro st b; rfl
  | cons m ms ih =>
    intro st b
    by_cases h : st.stop = true
    · rw [bsLoop_stopped st (m :: ms ++ b) h, bsLoop_stopped st (m :: ms) h,
        bsLoop_stopped st b h]
    · rw [Bool.not_eq_true] at h
      show bsLoop st (m :: (ms ++ b)) = bsLoop (bsLoop st (m :: ms)) b
      simp only [bsLoop, h, Bool.false_eq_true, if_false]
      exact ih (bsProcessMonth st m) b

lemma bsLoop_fetched_of_not_stop (l : List MonthFetch) :
    ∀ st : BsState, (bsLoop st l).stop = false →
      (bsLoop st l).fetchedCount = st.fetchedCount + l.length := by
  induction l with
  | nil => intro st _; simp [bsLoop]
  | cons m ms ih =>
    intro st h
    by_cases hs : st.stop = true
    · rw [bsLoop_stopped st (m :: ms) hs] at h
      rw [h] at hs
      exact absurd hs (by simp)
    · rw [Bool.not_eq_true] at hs
      have hexp : bsLoop st (m :: ms) = bsLoop (bsProcessMonth st m) ms := by
        simp only [bsLoop, hs, Bool.false_eq_true, if_false]
      rw [hexp] at h ⊢
      rw [ih _ h, bsProcessMonth_fetched]
      simp only [List.length_cons]
      omega

lemma bsLoop_zeros (zs : List MonthFetch) :
    ∀ (st : BsState) (z : MonthFetch),
      (∀ m ∈ z :: zs, bsZeroMonth m = true) → st.stop = false →
      st.zeroCount + (z :: zs).length = 10 →
      (bsLoop st (z :: zs)).fetchedCount =
          st.fetchedCount + (z :: zs).length ∧
        (bsLoop st (z :: zs)).stop = true := by
  induction zs with
  | nil =>
    intro st z hz hstop hcount
    have hzc : st.zeroCount = 9 := by simpa using hcount
    have hexp : bsLoop st [z] = bsProcessMonth st z := by
      simp only [bsLoop, hstop, Bool.false_eq_true, if_false]
    rw [hexp, bsProcessMonth_zero st z (hz z (by simp)), hzc]
    exact ⟨rfl, by simp [hstop]⟩
  | cons z2 rest ih =>
    intro st z hz hstop hcount
    have hexp : bsLoop st (z :: z2 :: rest) =
        bsLoop (bsProcessMonth st z) (z2 :: rest) := by
      simp only [bsLoop, hstop, Bool.false_eq_true, if_false]
    rw [hexp, bsProcessMonth_zero st z (hz z (by simp))]
    have hne : (st.zeroCount + 1 == 10) = false := by
      have : st.zeroCount + 1 ≠ 10 := by
        simp only [List.length_cons] at hcount
        omega
      exact beq_eq_false_iff_ne.mpr this
    have hstop2 : (st.stop || (st.zeroCount + 1 == 10)) = false := by
      rw [hstop, hne]
      rfl
    have := ih
      { processedMonths := st.processedMonths,
        zeroCount := st.zeroCount + 1,
        stop := st.stop || (st.zeroCount + 1 == 10),
        uniqueKeys := st.uniqueKeys,
        dataMap := st.dataMap,
        fetchedCount := st.fetchedCount + 1,
        flattened := st.flattened }
      z2 (fun m hm => hz m (by simp at hm ⊢; tauto)) hstop2
      (by simp only [List.length_cons] at hcount ⊢; omega)
    refine ⟨?_, this.2⟩
    rw [this.1]
    simp only [List.length_cons]
    omega

lemma dateLe_trans {a b c : CalDate} (h1 : dateLe a b = true)
    (h2 : dateLe b c = true) : dateLe a c = true := by
  simp only [dateLe, Bool.or_eq_true, Bool.and_eq_true, decide_eq_true_eq,
    beq_iff_eq] at h1 h2 ⊢
  omega

lemma dateLe_total (a b : CalDate) : dateLe a b = true ∨ dateLe b a = true := by
  simp only [dateLe, Bool.or_eq_true, Bool.and_eq_true, decide_eq_true_eq,
    beq_iff_eq]
  omega

/-- C2: the invoice fetcher's output is exactly the `ACCREC` +
`AUTHORISED`/`PAID` invoices (a permutation of the filter, with a
membership characterisation), sorted by invoice date descending, each
projected to the 11-field row `[type, number, reference, amountDue,
amountPaid, contact name, formatted date, formatted due date, status,
total, currency]`. -/
theorem c2_invoice_rows (invs : List Invoice) :
    invoiceRows invs = (sortedAccrec invs).map invoiceRow
  ∧ (sortedAccrec invs).Perm (invs.filter keepInvoice)
  ∧ List.Pairwise (fun a b => dateLe b.date a.date = true) (sortedAccrec invs)
  ∧ (∀ inv, inv ∈ sortedAccrec invs ↔
      inv ∈ invs ∧ inv.type = "ACCREC" ∧
        (inv.status = "AUTHORISED" ∨ inv.status = "PAID"))
  ∧ (∀ inv, invoiceRow inv =
      [CellV.s inv.type, CellV.s inv.invoiceNumber, CellV.s inv.reference,
        CellV.n inv.amountDue, CellV.n inv.amountPaid,
        CellV.s inv.contact.name, CellV.s (formatDate inv.date),
        CellV.s (formatDate inv.dueDate), CellV.s inv.status,
        CellV.n inv.total, CellV.s inv.currencyCode]) := by
  refine ⟨rfl, List.mergeSort_perm _ _, ?_, ?_, fun inv => rfl⟩
  · exact @List.sorted_mergeSort Invoice (fun a b => dateLe b.date a.date)
      (fun a b c h1 h2 => dateLe_trans h2 h1)
      (fun a b => by
        rcases dateLe_total b.date a.date with h | h <;> simp [h])
      (invs.filter keepInvoice)
  · intro inv
    rw [show sortedAccrec invs =
        (invs.filter keepInvoice).mergeSort (fun a b => dateLe b.date a.date)
      from rfl]
    rw [(List.mergeSort_perm (invs.filter keepInvoice) _).mem_iff,
      List.mem_filter]
    simp [keepInvoice]

/-- C1: for both the Profit-and-Loss and the Balance Sheet fetchers,
iterating the date ranges newest to oldest: after any prefix that leaves
the loop running with its consecutive-zero counter at 0, ten consecutive
successfully fetched months with no nonzero signal line (Gross Profit/Net
Profit for P&L, Net Assets for the balance sheet) halt processing right
after the tenth such month — the fetch counter stops at `pre.length + 10`
whatever months follow, so the eleventh month is never fetched — and a
month with a nonzero signal line resets the consecutive-zero counter
to 0. -/
theorem c1_early_stop :
    (∀ pre zeros rest : List MonthFetch,
      zeros.length = 10 →
      (∀ m ∈ zeros, pnlZeroMonth m = true) →
      (pnlLoop pnlInit pre).stop = false →
      (pnlLoop pnlInit pre).zeroCount = 0 →
      (pnlRun (pre ++ (zeros ++ rest))).fetchedCount = pre.length + 10 ∧
        (pnlRun (pre ++ (zeros ++ rest))).stop = true)
  ∧ (∀ (st : PnlState) (m : MonthFetch), pnlSignalMonth m = true →
      (pnlProcessMonth st m).zeroCount = 0)
  ∧ (∀ pre zeros rest : List MonthFetch,
      zeros.length = 10 →
      (∀ m ∈ zeros, bsZeroMonth m = true) →
      (bsLoop (bsInit (pre ++ (zeros ++ rest))) pre).stop = false →
      (bsLoop (bsInit (pre ++ (zeros ++ rest))) pre).zeroCount = 0 →
      (bsRun (pre ++ (zeros ++ rest))).fetchedCount = pre.length + 10 ∧
        (bsRun (pre ++ (zeros ++ rest))).stop = true)
  ∧ (∀ (st : BsState) (m : MonthFetch), bsSignalMonth m = true →
      (bsProcessMonth st m).zeroCount = 0) := by
  refine ⟨?_, ?_, ?_, ?_⟩
  · intro pre zeros rest hlen hz hstop hzero
    rcases zeros with _ | ⟨z, zs⟩
    · simp at hlen
    · have hsplit : pnlRun (pre ++ ((z :: zs) ++ rest)) =
          pnlLoop (pnlLoop (pnlLoop pnlInit pre) (z :: zs)) rest := by
        rw [pnlRun, pnlLoop_append, pnlLoop_append]
      have hzl := pnlLoop_zeros zs (pnlLoop pnlInit pre) z hz hstop
        (by rw [hzero, hlen])
      have hrest := pnlLoop_stopped _ rest hzl.2
      constructor
      · rw [hsplit, hrest, hzl.1,
          pnlLoop_fetched_of_not_stop pre pnlInit hstop]
        have : pnlInit.fetchedCount = 0 := rfl
        rw [this, hlen]
        omega
      · rw [hsplit, hrest]
        exact hzl.2
  · intro st m hm
    exact (pnlProcessMonth_signal st m hm).1
  · intro pre zeros rest hlen hz hstop hzero
    rcases zeros with _ | ⟨z, zs⟩
    · simp at hlen
    · have hsplit : bsRun (pre ++ ((z :: zs) ++ rest)) =
          bsLoop (bsLoop (bsLoop (bsInit (pre ++ ((z :: zs) ++ rest))) pre)
            (z :: zs)) rest := by
        rw [bsRun, bsLoop_append, bsLoop_append]
      have hzl := bsLoop_zeros zs
        (bsLoop (bsInit (pre ++ ((z :: zs) ++ rest))) pre) z hz hstop
        (by rw [hzero, hlen])
      have hrest := bsLoop_stopped _ rest hzl.2
      constructor
      · rw [hsplit, hrest, hzl.1,
          bsLoop_fetched_of_not_stop pre (bsInit (pre ++ ((z :: zs) ++ rest)))
            hstop]
        have : (bsInit (pre ++ ((z :: zs) ++ rest))).fetchedCount = 0 := rfl
        rw [this, hlen]
        omega
      · rw [hsplit, hrest]
        exact hzl.2
  · intro st m hm
    exact (bsProcessMonth_signal st m hm).1

/-- C1 witness: the early-stop theorem applied at concrete inputs — ten
zero months followed by an eleventh month leave the fetch counter at 10
with the stop flag set, for both fetchers, and concrete signal months
reset the counters. -/
theorem c1_early_stop_witness :
    ((pnlRun (([] : List MonthFetch) ++
          (List.replicate 10 monthZeroPnl ++ [monthZeroPnl]))).fetchedCount =
        ([] : List MonthFetch).length + 10 ∧
      (pnlRun (([] : List MonthFetch) ++
          (List.replicate 10 monthZeroPnl ++ [monthZeroPnl]))).stop = true)
  ∧ (pnlProcessMonth pnlInit monthSignalPnlEx).zeroCount = 0
  ∧ ((bsRun (([] : List MonthFetch) ++
          (List.replicate 10 monthZeroBs ++ [monthZeroBs]))).fetchedCount =
        ([] : List MonthFetch).length + 10 ∧
      (bsRun (([] : List MonthFetch) ++
          (List.replicate 10 monthZeroBs ++ [monthZeroBs]))).stop = true)
  ∧ (bsProcessMonth (bsInit [monthBsMar]) monthBsMar).zeroCount = 0 :=
  ⟨c1_early_stop.1 [] (List.replicate 10 monthZeroPnl) [monthZeroPnl]
      (by decide) (by decide) (by decide) (by decide),
    c1_early_stop.2.1 pnlInit monthSignalPnlEx (by decide),
    c1_early_stop.2.2.1 [] (List.replicate 10 monthZeroBs) [monthZeroBs]
      (by decide) (by decide) (by decide) (by decide),
    c1_early_stop.2.2.2 (bsInit [monthBsMar]) monthBsMar (by decide)⟩

/-- C5 counterexample: a single fetched month with zero profits is not
included (no month label is ever processed, so no block of rows is
emitted), yet the two blank separator rows are still appended.  Blank
separators therefore do not appear only after included months' blocks, as
the claim states: the source pushes them after every successfully fetched
month. -/
theorem c5_counterexample :
    (pnlRun [monthZeroPnl]).formattedRows = [[], []]
  ∧ (pnlRun [monthZeroPnl]).processedMonths = [] :=
  ⟨by decide, by decide⟩

/-- C6 counterexample: a nonempty tenant list whose first tenant has no
tenant id still makes `saveTokenSet` fail with the no-tenant error, so the
failure condition is not "exactly when the resolved tenant list is
empty". -/
theorem c6_counterexample :
    [Tenant.mk ""] ≠ ([] : List Tenant)
  ∧ (saveTokenSet [Tenant.mk ""] 0 tsEx []).1 = some "No tenant ID available."
  ∧ (saveTokenSet [Tenant.mk ""] 0 tsEx []).2 = [] :=
  ⟨by decide, by decide, by decide⟩

/-- Case analysis of `saveTokenSet`: either the tenant id is falsy and the
call fails leaving the store untouched, or it succeeds with the upsert. -/
lemma saveTokenSet_cases (tenants : List Tenant) (now : Int)
    (ts : XeroTokenSet) (store : List TokenDoc) :
    (saveTokenSet tenants now ts store = (some "No tenant ID available.", store)
      ∧ ((tenants.head?).map Tenant.tenantId).getD "" = "")
  ∨ (saveTokenSet tenants now ts store =
      (none, mkTokenDoc ts (now + ts.expires_in * 1000)
        (((tenants.head?).map Tenant.tenantId).getD "") :: store.tail)
      ∧ ((tenants.head?).map Tenant.tenantId).getD "" ≠ "") := by
  by_cases h : ((tenants.head?).map Tenant.tenantId).getD "" = ""
  · left
    refine ⟨?_, h⟩
    simp only [saveTokenSet]
    rw [if_pos (beq_iff_eq.mpr h)]
  · right
    refine ⟨?_, h⟩
    simp only [saveTokenSet]
    rw [if_neg (fun hc => h (beq_iff_eq.mp hc))]
    cases store <;> rfl

/-- C6 (amended): `saveTokenSet` fails with the no-tenant error exactly
when `tenants[0]?.tenantId` is absent or empty; on failure the store is
untouched; on success it writes `expiresAt = now + expires_in * 1000` and
performs a single upsert of the singleton Credential (replacing the
`findOne` document or inserting the first one). -/
theorem c6_save_token_amended (tenants : List Tenant) (now : Int)
    (ts : XeroTokenSet) (store : List TokenDoc) :
    ((saveTokenSet tenants now ts store).1.isSome = true ↔
      ((tenants.head?).map Tenant.tenantId).getD "" = "")
  ∧ ((saveTokenSet tenants now ts store).1.isSome = true →
      (saveTokenSet tenants now ts store).2 = store)
  ∧ ((saveTokenSet tenants now ts store).1 = none →
      (saveTokenSet tenants now ts store).2 =
        mkTokenDoc ts (now + ts.expires_in * 1000)
          (((tenants.head?).map Tenant.tenantId).getD "") :: store.tail
    ∧ (saveTokenSet tenants now ts store).2.length = max store.length 1) := by
  rcases saveTokenSet_cases tenants now ts store with ⟨heq, h⟩ | ⟨heq, h⟩
  · rw [heq]
    exact ⟨by simpa using h, fun _ => rfl, fun hn => by simp at hn⟩
  · rw [heq]
    refine ⟨by simpa using h, by simp, fun _ => ⟨rfl, ?_⟩⟩
    cases store with
    | nil => rfl
    | cons d rest =>
      simp only [List.tail_cons, List.length_cons]
      omega

/-- C6 witness: the amended theorem at a concrete success input. -/
theorem c6_save_token_amended_witness :
    (saveTokenSet [Tenant.mk "t1"] 5 tsEx []).2 =
      mkTokenDoc tsEx (5 + tsEx.expires_in * 1000) "t1" :: ([] : List TokenDoc).tail :=
  ((c6_save_token_amended [Tenant.mk "t1"] 5 tsEx []).2.2 (by decide)).1

/-- Preservation of the at-most-one-document invariant by a single store
operation. -/
lemma applyOp_length (store : List TokenDoc) (op : StoreOp)
    (h : store.length ≤ 1) : (applyOp store op).length ≤ 1 := by
  cases op with
  | stopJob => simp [applyOp]
  | save tenants now ts =>
    show (saveTokenSet tenants now ts store).2.length ≤ 1
    rcases saveTokenSet_cases tenants now ts store with ⟨heq, _⟩ | ⟨heq, _⟩
    · rw [heq]
      exact h
    · rw [heq]
      cases store with
      | nil => simp
      | cons d rest => simpa using h

/-- C7: the Credential store never holds more than one document: any
sequence of operations from the empty store keeps at most one document,
and each single operation preserves the invariant. -/
theorem c7_singleton_store (ops : List StoreOp) (store : List TokenDoc)
    (op : StoreOp) (h : store.length ≤ 1) :
    (ops.foldl applyOp []).length ≤ 1 ∧ (applyOp store op).length ≤ 1 := by
  refine ⟨?_, applyOp_length store op h⟩
  have key : ∀ (l : List StoreOp) (st : List TokenDoc), st.length ≤ 1 →
      (l.foldl applyOp st).length ≤ 1 := by
    intro l
    induction l with
    | nil => intro st hst; simpa using hst
    | cons o rest ih => intro st hst; exact ih _ (applyOp_length st o hst)
  exact key ops [] (by simp)

/-- C7 witness: the invariant theorem applied at a concrete input. -/
theorem c7_singleton_store_witness :
    (([StoreOp.stopJob].foldl applyOp []).length ≤ 1 ∧
      (applyOp [] StoreOp.stopJob).length ≤ 1) ∧
    ([] : List TokenDoc).length ≤ 1 :=
  ⟨c7_singleton_store [StoreOp.stopJob] [] StoreOp.stopJob (by decide), by decide⟩

/-- C8 (code bug): on the invoice path no HTTP status is ever surfaced to
the triggering request — a timeout (`ETIMEDOUT`) does not produce 504 and
other remote failures do not produce 500, because the catch block's
`res.status(...)` references a `res` that is not in scope in
`fetchAndUpdateInvoices`; the resulting ReferenceError is swallowed by the
outer catch. -/
theorem c8_no_status_surfaced :
    invoiceFetchHttpStatus (InvoiceFetchOutcome.err "ETIMEDOUT") ≠ some 504
  ∧ invoiceFetchHttpStatus (InvoiceFetchOutcome.err "ECONNRESET") ≠ some 500
  ∧ ∀ o, invoiceFetchHttpStatus o = none := by
  refine ⟨by decide, by decide, fun o => ?_⟩
  cases o <;> rfl

/-- C9: one full clear-then-write run of the spreadsheet writer is
idempotent — repeating the identical write (invoice variant with the
unbounded clear, balance-sheet variant with the 1000-row bounded clear)
leaves the same final grid as performing it once. -/
theorem c9_write_idempotent (header : List String) (rows : List (List String))
    (s : Sheet) :
    invoiceSheetWrite header rows (invoiceSheetWrite header rows s) =
      invoiceSheetWrite header rows s
  ∧ bsSheetWrite header rows (bsSheetWrite header rows s) =
      bsSheetWrite header rows s := by
  constructor
  · funext r c
    simp only [invoiceSheetWrite, writeValuesAt, clearAllValues]
  · funext r c
    simp only [bsSheetWrite, writeValuesAt, clearRect]
    cases h : ((header :: rows).get? r).bind (fun row => row.get? c) with
    | none =>
      by_cases hr : (r < 1000 && c < header.length) = true
      · simp [h, hr]
      · simp [h, hr]
    | some v => simp [h]

lemma alGet_alSet_self {α : Type} :
    ∀ (l : List (String × α)) (k : String) (v : α),
      alGet (alSet l k v) k = some v
  | [], k, v => by simp [alSet, alGet]
  | (k', v') :: rest, k, v => by
    by_cases h : k' = k
    · subst h
      simp [alSet, alGet]
    · have hb : (k' == k) = false := by simpa using h
      simp [alSet, alGet, hb, alGet_alSet_self rest k v]

lemma alGet_alSet_ne {α : Type} :
    ∀ (l : List (String × α)) (k k2 : String) (v : α), k2 ≠ k →
      alGet (alSet l k v) k2 = alGet l k2
  | [], k, k2, v, hne => by
    have hb : (k == k2) = false := by
      simp only [beq_eq_false_iff_ne]
      exact fun he => hne he.symm
    simp [alSet, alGet, hb]
  | (k', v') :: rest, k, k2, v, hne => by
    by_cases h : k' = k
    · subst h
      have hb2 : (k' == k2) = false := by
        simp only [beq_eq_false_iff_ne]
        exact fun he => hne he.symm
      simp [alSet, alGet, hb2]
    · have hb : (k' == k) = false := by simpa using h
      by_cases h2 : k' = k2
      · subst h2
        simp [alSet, alGet, hb]
      · have hb2 : (k' == k2) = false := by simpa using h2
        simp [alSet, alGet, hb, hb2, alGet_alSet_ne rest k k2 v hne]

lemma bsHasLabelAt_labelStore (mm : MonthMap) (c0 label c1 k : String)
    (h : (alGet (labelStore mm c0 label c1) k).isSome = true) :
    (alGet mm k).isSome = true ∨ k = c0 := by
  by_cases hk : k = c0
  · exact Or.inr hk
  · left
    rw [labelStore] at h
    rcases hm : alGet mm c0 with _ | obj
    · rw [hm] at h
      rwa [alGet_alSet_ne mm c0 k _ hk] at h
    · rw [hm] at h
      rwa [alGet_alSet_ne mm c0 k _ hk] at h

lemma bsHasLabelAt_bsStore (m : BsMap) (startS c0 label c1 k s2 : String)
    (h : bsHasLabelAt (bsStore m startS c0 label c1) k s2 = true) :
    bsHasLabelAt m k s2 = true ∨ (s2 = startS ∧ k = c0) := by
  rw [bsStore] at h
  rcases hm : alGet m startS with _ | mm
  · rw [hm] at h
    exact Or.inl h
  · rw [hm] at h
    by_cases hs : s2 = startS
    · subst hs
      simp only [bsHasLabelAt, alGet_alSet_self] at h
      rcases bsHasLabelAt_labelStore mm c0 label c1 k h with h2 | h2
      · refine Or.inl ?_
        simp only [bsHasLabelAt, hm]
        exact h2
      · exact Or.inr ⟨rfl, h2⟩
    · simp only [bsHasLabelAt, alGet_alSet_ne m startS s2 _ hs] at h
      refine Or.inl ?_
      simp only [bsHasLabelAt]
      exact h

lemma setAdd_mem_of_mem {l : List String} {x : String} (k : String)
    (h : x ∈ l) : x ∈ setAdd l k := by
  rw [setAdd]
  split
  · exact h
  · exact List.mem_append_left _ h

lemma setAdd_mem_self (l : List String) (k : String) : k ∈ setAdd l k := by
  rw [setAdd]
  split
  · rename_i hc
    simpa using hc
  · exact List.mem_append_right _ (by simp)

lemma bsFlattenSubRows_keys (startS label : String) :
    ∀ (l : List SubRow) (acc : BsAcc) (x : String),
      x ∈ acc.uniqueKeys → x ∈ (bsFlattenSubRows startS label acc l).uniqueKeys
  | [], _, _, h => h
  | sr :: rest, acc, x, h => by
    simp only [bsFlattenSubRows]
    split
    · exact bsFlattenSubRows_keys startS label rest _ x (setAdd_mem_of_mem _ h)
    · exact bsFlattenSubRows_keys startS label rest acc x h

lemma bsFlattenRows_keys (startS label : String) :
    ∀ (l : List ReportRow) (acc : BsAcc) (x : String),
      x ∈ acc.uniqueKeys → x ∈ (bsFlattenRows startS label acc l).uniqueKeys
  | [], _, _, h => h
  | r :: rest, acc, x, h => by
    simp only [bsFlattenRows]
    split
    · refine bsFlattenRows_keys startS label rest _ x ?_
      refine bsFlattenSubRows_keys startS label r.rows _ x ?_
      split
      · exact setAdd_mem_of_mem _ h
      · exact h
    · exact bsFlattenRows_keys startS label rest acc x h

lemma bsFlattenSubRows_inv (startS label : String) (rep : Report)
    (r0 : ReportRow) (hr0 : r0 ∈ rep.rows)
    (hr0sec : (r0.rowType == RowType.Section) = true)
    (flat : List (String × Report)) (hflat : (startS, rep) ∈ flat) :
    ∀ (l : List SubRow) (acc : BsAcc), (∀ sr ∈ l, sr ∈ r0.rows) →
      bsInvariant flat acc.uniqueKeys acc.dataMap →
      bsInvariant flat (bsFlattenSubRows startS label acc l).uniqueKeys
        (bsFlattenSubRows startS label acc l).dataMap
  | [], _, _, h => h
  | sr :: rest, acc, hsub, h => by
    simp only [bsFlattenSubRows]
    split
    · rename_i hdata
      refine bsFlattenSubRows_inv startS label rep r0 hr0 hr0sec flat hflat
        rest _ (fun x hx => hsub x (by simp [hx])) ?_
      intro s2 k hk
      rcases bsHasLabelAt_bsStore acc.dataMap startS (sr.cells.getD 0 "")
          label (sr.cells.getD 1 "") k s2 hk with hold | ⟨hs2, hk0⟩
      · obtain ⟨hkeys, rep2, hrep2, hhead⟩ := h s2 k hold
        exact ⟨setAdd_mem_of_mem _ hkeys, rep2, hrep2, hhead⟩
      · subst hs2
        subst hk0
        refine ⟨setAdd_mem_self _ _, rep, hflat, ?_⟩
        refine List.any_eq_true.mpr ⟨r0, hr0, ?_⟩
        rw [Bool.and_eq_true]
        refine ⟨hr0sec, List.any_eq_true.mpr ⟨sr, hsub sr (by simp), ?_⟩⟩
        rw [Bool.and_eq_true]
        exact ⟨hdata, beq_self_eq_true _⟩
    · exact bsFlattenSubRows_inv startS label rep r0 hr0 hr0sec flat hflat
        rest acc (fun x hx => hsub x (by simp [hx])) h

lemma bsFlattenRows_inv (startS label : String) (rep : Report)
    (flat : List (String × Report)) (hflat : (startS, rep) ∈ flat) :
    ∀ (l : List ReportRow) (acc : BsAcc), (∀ r ∈ l, r ∈ rep.rows) →
      bsInvariant flat acc.uniqueKeys acc.dataMap →
      bsInvariant flat (bsFlattenRows startS label acc l).uniqueKeys
        (bsFlattenRows startS label acc l).dataMap
  | [], _, _, h => h
  | r0 :: rest, acc, hsub, h => by
    simp only [bsFlattenRows]
    split
    · rename_i hsec
      refine bsFlattenRows_inv startS label rep flat hflat rest _
        (fun x hx => hsub x (by simp [hx])) ?_
      refine bsFlattenSubRows_inv startS label rep r0 (hsub r0 (by simp))
        hsec flat hflat r0.rows _ (fun sr hsr => hsr) ?_
      split
      · intro s2 k hk
        obtain ⟨h1, rep2, h2, h3⟩ := h s2 k hk
        exact ⟨setAdd_mem_of_mem _ h1, rep2, h2, h3⟩
      · exact h
    · exact bsFlattenRows_inv startS label rep flat hflat rest acc
        (fun x hx => hsub x (by simp [hx])) h

lemma bsFlattenRows_title (startS label : String) :
    ∀ (l : List ReportRow) (acc : BsAcc) (r : ReportRow), r ∈ l →
      (r.rowType == RowType.Section) = true → r.title ≠ "" →
      r.title ∈ (bsFlattenRows startS label acc l).uniqueKeys
  | [], _, _, hmem, _, _ => absurd hmem (by simp)
  | r0 :: rest, acc, r, hmem, hsec, ht => by
    simp only [bsFlattenRows]
    rcases List.mem_cons.mp hmem with rfl | hmem2
    · rw [if_pos hsec]
      have h1 : r.title ∈ (if r.title != "" then
          { acc with uniqueKeys := setAdd acc.uniqueKeys r.title }
          else acc).uniqueKeys := by
        rw [if_pos (by simpa using ht)]
        exact setAdd_mem_self _ _
      exact bsFlattenRows_keys startS label rest _ _
        (bsFlattenSubRows_keys startS label r.rows _ _ h1)
    · split
      · exact bsFlattenRows_title startS label rest _ r hmem2 hsec ht
      · exact bsFlattenRows_title startS label rest acc r hmem2 hsec ht

lemma bsInvariant_mono {flat flat' : List (String × Report)}
    {keys keys' : List String} {m : BsMap}
    (hf : ∀ p ∈ flat, p ∈ flat') (hk : ∀ x ∈ keys, x ∈ keys')
    (h : bsInvariant flat keys m) : bsInvariant flat' keys' m := by
  intro s2 k hkk
  obtain ⟨h1, rep, h2, h3⟩ := h s2 k hkk
  exact ⟨hk _ h1, rep, hf _ h2, h3⟩

lemma bsFlatten_inv_full (rep : Report) (startS label : String)
    (flat : List (String × Report)) (keys : List String) (m : BsMap)
    (h1 : bsInvariant flat keys m) (h2 : bsTitlesInv flat keys) :
    bsInvariant (flat ++ [(startS, rep)])
        (bsFlattenRows startS label ⟨keys, m⟩ rep.rows).uniqueKeys
        (bsFlattenRows startS label ⟨keys, m⟩ rep.rows).dataMap
  ∧ bsTitlesInv (flat ++ [(startS, rep)])
      (bsFlattenRows startS label ⟨keys, m⟩ rep.rows).uniqueKeys := by
  constructor
  · refine bsFlattenRows_inv startS label rep _
      (List.mem_append_right _ (by simp)) rep.rows ⟨keys, m⟩
      (fun x hx => hx) ?_
    exact bsInvariant_mono (fun p hp => List.mem_append_left _ hp)
      (fun x hx => hx) h1
  · intro p hp r2 hr2 hsec2 ht2
    rcases List.mem_append.mp hp with hp1 | hp2
    · exact bsFlattenRows_keys startS label rep.rows _ _
        (h2 p hp1 r2 hr2 hsec2 ht2)
    · have hps : p = (startS, rep) := by simpa using hp2
      subst hps
      exact bsFlattenRows_title startS label rep.rows _ r2 hr2
        (by simp [hsec2]) ht2

lemma bsRowStep_inv (rep : Report) (startS label : String) (s : BsScan)
    (r : ReportRow) (h : bsScanInv s) :
    exceptInv bsScanInv (bsRowStep rep startS label s r) := by
  rw [bsRowStep]
  by_cases hH : (r.rowType == RowType.Header && r.cells.length > 1) = true <;>
    simp only [hH, Bool.false_eq_true, if_true, if_false] <;>
    by_cases hS : (r.rowType == RowType.Section && r.title == "") = true <;>
      simp only [hS, Bool.false_eq_true, if_true, if_false]
  · have hHty : r.rowType = RowType.Header :=
      beq_iff_eq.mp (Bool.and_elim_left hH)
    rw [Bool.and_eq_true, hHty] at hS
    simp at hS
  · exact h
  · by_cases hT : scanThrows r.rows = true
    · simp only [hT, if_true]
      exact h
    · simp only [hT, Bool.false_eq_true, if_false]
      by_cases hsig : r.rows.any (signalSubRow "Net Assets") = true
      · simp only [hsig, if_true]
        split
        · have hfull := bsFlatten_inv_full rep startS label s.flattened
            s.uniqueKeys s.dataMap h.1 h.2
          exact ⟨hfull.1, hfull.2⟩
        · exact h
      · simp only [hsig, Bool.false_eq_true, if_false]
        exact h
  · exact h

lemma bsFoldRows_inv (rep : Report) (startS label : String) :
    ∀ (l : List ReportRow) (s : BsScan), bsScanInv s →
      exceptInv bsScanInv (l.foldlM (bsRowStep rep startS label) s)
  | [], _, h => h
  | r :: rest, s, h => by
    rw [List.foldlM_cons]
    have hstep := bsRowStep_inv rep startS label s r h
    rcases hres : bsRowStep rep startS label s r with s1 | s1
    · rw [hres] at hstep
      exact hstep
    · rw [hres] at hstep
      rw [exceptOk_bind]
      exact bsFoldRows_inv rep startS label rest s1 hstep

lemma bsScanReports_inv (startS label : String) :
    ∀ (reports : List Report) (s : BsScan), bsScanInv s →
      exceptInv bsScanInv (bsScanReports startS label reports s)
  | [], _, h => h
  | rep :: reports, s, h => by
    rw [bsScanReports, List.foldlM_cons]
    have hstep : exceptInv bsScanInv (bsScanReport startS label s rep) := by
      rw [bsScanReport]
      exact bsFoldRows_inv rep startS label rep.rows
        { s with currentMonth := "" } h
    rcases hres : bsScanReport startS label s rep with s1 | s1
    · rw [hres] at hstep
      exact hstep
    · rw [hres] at hstep
      rw [exceptOk_bind]
      exact bsScanReports_inv startS label reports s1 hstep

lemma bsProcessMonth_inv (st : BsState) (m : MonthFetch)
    (h : bsStateInv st) : bsStateInv (bsProcessMonth st m) := by
  rcases m with ⟨d, mres⟩
  rcases mres with _ | reports
  · exact h
  · simp only [bsProcessMonth]
    have hscan := bsScanReports_inv (d, some reports).1.start
      (bsMonthLabel (d, some reports).1) reports
      { currentMonth := "", includeMonth := false, zeroCount := st.zeroCount,
        processed := st.processedMonths, uniqueKeys := st.uniqueKeys,
        dataMap := st.dataMap, flattened := st.flattened }
      ⟨h.1, h.2⟩
    rcases hres : bsScanReports (d, some reports).1.start
      (bsMonthLabel (d, some reports).1) reports
      { currentMonth := "", includeMonth := false, zeroCount := st.zeroCount,
        processed := st.processedMonths, uniqueKeys := st.uniqueKeys,
        dataMap := st.dataMap, flattened := st.flattened } with s1 | s1
    · rw [hres] at hscan
      exact ⟨hscan.1, hscan.2⟩
    · rw [hres] at hscan
      exact ⟨hscan.1, hscan.2⟩

lemma bsLoop_inv : ∀ (months : List MonthFetch) (st : BsState),
    bsStateInv st → bsStateInv (bsLoop st months)
  | [], _, h => h
  | m :: ms, st, h => by
    by_cases hs : st.stop = true
    · rw [bsLoop_stopped st (m :: ms) hs]
      exact h
    · rw [Bool.not_eq_true] at hs
      have hexp : bsLoop st (m :: ms) = bsLoop (bsProcessMonth st m) ms := by
        simp only [bsLoop, hs, Bool.false_eq_true, if_false]
      rw [hexp]
      exact bsLoop_inv ms _ (bsProcessMonth_inv st m h)

lemma bsInit_values : ∀ (months : List MonthFetch) (acc : BsMap),
    (∀ s2 mm, alGet acc s2 = some mm → mm = []) →
    ∀ s2 mm,
      alGet (months.foldl (fun m p => alSet m p.1.start []) acc) s2 =
        some mm → mm = []
  | [], _, h => h
  | m :: ms, acc, h => by
    rw [List.foldl_cons]
    refine bsInit_values ms _ ?_
    intro s2 mm hmm
    by_cases hs : s2 = m.1.start
    · subst hs
      rw [alGet_alSet_self] at hmm
      exact (Option.some.inj hmm).symm
    · rw [alGet_alSet_ne acc m.1.start s2 _ hs] at hmm
      exact h s2 mm hmm

lemma bsRun_inv (months : List MonthFetch) : bsStateInv (bsRun months) := by
  rw [bsRun]
  refine bsLoop_inv months (bsInit months) ⟨?_, ?_⟩
  · intro s2 k hk
    exfalso
    simp only [bsHasLabelAt] at hk
    rcases hm : alGet (bsInit months).dataMap s2 with _ | mm
    · rw [hm] at hk
      exact absurd hk (by simp)
    · have hmm : mm = [] := by
        refine bsInit_values months [] ?_ s2 mm hm
        intro s3 mm3 h3
        simp [alGet] at h3
      subst hmm
      rw [hm] at hk
      simp [alGet] at hk
  · intro p hp
    exact absurd hp (by simp [bsInit])

lemma bsCellValue_absent (m : BsMap) (k : String) (d : DateRange)
    (h : bsHasLabelAt m k d.start = false) : bsCellValue m k d = "" := by
  simp only [bsHasLabelAt] at h
  simp only [bsCellValue]
  rcases hm : alGet m d.start with _ | mm
  · rfl
  · rw [hm] at h
    have h2 : (alGet mm k).isSome = false := h
    show (match alGet mm k with
      | none => ""
      | some obj =>
        match alGet obj (bsMonthLabel d) with
        | none => ""
        | some v => v) = ""
    rcases hk : alGet mm k with _ | obj
    · rfl
    · rw [hk] at h2
      simp at h2

/-- C4: in the balance-sheet cross-tab, the header row is "Heads" followed
by the month-end dates of the included months, and any label stored for
some included month A yields an output row — never omitted — whose cell in
the column of an included month B lacking the label is the empty string. -/
theorem c4_balance_crosstab (months : List MonthFetch) (label : String)
    (A B : DateRange)
    (hA : bsHasLabelAt (bsRun months).dataMap label A.start = true)
    (_hB : B ∈ bsIncludedDates months (bsRun months).dataMap)
    (hBabs : bsHasLabelAt (bsRun months).dataMap label B.start = false) :
    bsHeaderValues months (bsRun months) =
      "Heads" :: (bsIncludedDates months (bsRun months).dataMap).map
        (fun d => d.endDate)
  ∧ (label :: (bsIncludedDates months (bsRun months).dataMap).map
      (bsCellValue (bsRun months).dataMap label)) ∈
        bsFormattedRows months (bsRun months)
  ∧ bsCellValue (bsRun months).dataMap label B = "" := by
  refine ⟨rfl, ?_, bsCellValue_absent _ _ _ hBabs⟩
  have hkey : label ∈ (bsRun months).uniqueKeys :=
    ((bsRun_inv months).1 A.start label hA).1
  exact List.mem_map.mpr ⟨label, hkey, rfl⟩

/-- C4 witness: with a March month holding a "Cash" row and a February
month without one, the "Cash" output row carries an empty cell in
February's column. -/
theorem c4_balance_crosstab_witness :
    bsCellValue (bsRun monthsBsEx).dataMap "Cash" rangeFeb24 = "" :=
  (c4_balance_crosstab monthsBsEx "Cash" rangeMar24 rangeFeb24
    (by decide) (by decide) (by decide)).2.2

/-- C10: every nonempty section title of a report flattened by the
balance-sheet fetcher is itself added to the row-key set, so the cross-tab
contains a row labelled with that title; and in any included month none of
whose flattened reports has a `Row`/`SummaryRow` whose first cell equals
the title, that row's cell is the empty string. -/
theorem c10_section_titles (months : List MonthFetch) (startS : String)
    (rep : Report) (r : ReportRow)
    (hmem : (startS, rep) ∈ (bsRun months).flattened)
    (hr : r ∈ rep.rows) (hsec : r.rowType = RowType.Section)
    (ht : r.title ≠ "") :
    r.title ∈ (bsRun months).uniqueKeys
  ∧ (r.title :: (bsIncludedDates months (bsRun months).dataMap).map
      (bsCellValue (bsRun months).dataMap r.title)) ∈
        bsFormattedRows months (bsRun months)
  ∧ ∀ d ∈ bsIncludedDates months (bsRun months).dataMap,
      (∀ rep2, (d.start, rep2) ∈ (bsRun months).flattened →
        repHasSubHead rep2 r.title = false) →
      bsCellValue (bsRun months).dataMap r.title d = "" := by
  have hinv := bsRun_inv months
  have hkey : r.title ∈ (bsRun months).uniqueKeys :=
    hinv.2 (startS, rep) hmem r hr hsec ht
  refine ⟨hkey, List.mem_map.mpr ⟨r.title, hkey, rfl⟩, ?_⟩
  intro d _ hnone
  refine bsCellValue_absent _ _ _ ?_
  rcases habs : bsHasLabelAt (bsRun months).dataMap r.title d.start with _ | _
  · rfl
  · obtain ⟨_, rep2, hrep2, hhead⟩ := hinv.1 d.start r.title habs
    rw [hnone rep2 hrep2] at hhead
    exact absurd hhead (by simp)

/-- C10 witness: the witness input's "Assets" section title appears as an
output row with blank cells. -/
theorem c10_section_titles_witness :
    "Assets" ∈ (bsRun monthsBsEx).uniqueKeys :=
  (c10_section_titles monthsBsEx "2024-03-02" repBsMar
    ⟨RowType.Section, "Assets", [], [⟨RowType.Row, ["Cash", "7"]⟩]⟩
    (by decide) (by decide) (by decide) (by decide)).1

end BPro
